import Mathlib

/-!
# Verification of the loan-amortization engine (`src/lib/loan-lib.ts`)

Shallow embedding of the TypeScript loan-schedule engine.  JavaScript
`Date` values are modelled as civil (proleptic-Gregorian) year/month/day
triples together with the milliseconds elapsed within the day; JavaScript
numbers are modelled as rationals (`ℚ`).  The one place the code can
divide by zero (the annuity closed form at monthly rate 0, where
JavaScript produces `NaN`) is isolated in `annuityDenominator` and treated
explicitly in the theorems that touch it.
-/

set_option maxRecDepth 4000

namespace LoanLib

/-- Model of a JavaScript `Date` value: civil year/month (1-based)/day
plus the milliseconds elapsed within the day. -/
structure JSDate where
  year : Int
  month : Int
  day : Int
  ms : Int
deriving DecidableEq, Repr

/-- `date-fns` `isLeapYear` (proleptic Gregorian). -/
def isLeapYearB (y : Int) : Bool :=
  (y % 4 == 0 && y % 100 != 0) || y % 400 == 0

/-- `date-fns` `getDaysInMonth` for month `m` (1-based) of year `y`. -/
def daysInMonth (y m : Int) : Int :=
  if m = 2 then (if isLeapYearB y then 29 else 28)
  else if m = 4 ∨ m = 6 ∨ m = 9 ∨ m = 11 then 30
  else 31

/-- Cumulative days before month `m` (1-based) in year `y`. -/
def monthOffset (y m : Int) : Int :=
  (if m ≤ 1 then 0
   else if m = 2 then 31
   else if m = 3 then 59
   else if m = 4 then 90
   else if m = 5 then 120
   else if m = 6 then 151
   else if m = 7 then 181
   else if m = 8 then 212
   else if m = 9 then 243
   else if m = 10 then 273
   else if m = 11 then 304
   else 334)
  + (if 3 ≤ m then (if isLeapYearB y then 1 else 0) else 0)

/-- Number of leap years strictly before year `y`. -/
def leapCount (y : Int) : Int :=
  (y - 1) / 4 - (y - 1) / 100 + (y - 1) / 400

/-- Days since the Unix epoch (1970-01-01) of the calendar day of `dt`. -/
def toDays (dt : JSDate) : Int :=
  365 * (dt.year - 1970) + (leapCount dt.year - leapCount 1970)
    + monthOffset dt.year dt.month + (dt.day - 1)

/-- The `Date.prototype.getTime` ordering key: milliseconds since epoch. -/
def getTime (dt : JSDate) : Int := 86400000 * toDays dt + dt.ms

/-- A structurally valid civil date (months 1–12, day within the month). -/
def ValidDate (dt : JSDate) : Prop :=
  1 ≤ dt.month ∧ dt.month ≤ 12 ∧ 1 ≤ dt.day ∧ dt.day ≤ daysInMonth dt.year dt.month

instance (dt : JSDate) : Decidable (ValidDate dt) := by
  unfold ValidDate; infer_instance

/-- The calendar day following `dt`. -/
def nextDay (dt : JSDate) : JSDate :=
  if dt.day < daysInMonth dt.year dt.month then { dt with day := dt.day + 1 }
  else if dt.month < 12 then { dt with month := dt.month + 1, day := 1 }
  else { dt with year := dt.year + 1, month := 1, day := 1 }

/-- The calendar day preceding `dt`. -/
def prevDay (dt : JSDate) : JSDate :=
  if 1 < dt.day then { dt with day := dt.day - 1 }
  else if 1 < dt.month then
    { dt with month := dt.month - 1, day := daysInMonth dt.year (dt.month - 1) }
  else { dt with year := dt.year - 1, month := 12, day := 31 }

/-- Add `k` calendar days to `dt`. -/
def addDaysFwd (dt : JSDate) : Nat → JSDate
  | 0 => dt
  | k + 1 => addDaysFwd (nextDay dt) k

/-- Subtract `k` calendar days from `dt`. -/
def addDaysBwd (dt : JSDate) : Nat → JSDate
  | 0 => dt
  | k + 1 => addDaysBwd (prevDay dt) k

/-- Add a (possibly negative) number of calendar days to `dt`. -/
def addDaysInt (dt : JSDate) (k : Int) : JSDate :=
  if 0 ≤ k then addDaysFwd dt k.toNat else addDaysBwd dt (-k).toNat

/-- JavaScript `Date.prototype.setDate nav`: re-anchor `dt` to day-of-month
`n` of its current month, with out-of-range values rolling into adjacent
months (`setDate 31` in February yields March 2/3). -/
def jsSetDate (dt : JSDate) (n : Int) : JSDate :=
  addDaysInt { dt with day := 1 } (n - 1)

/-- `date-fns` `addMonths`: add `n` months, clamping the day-of-month to
the target month's length; the time of day is preserved. -/
def addMonths (dt : JSDate) (n : Int) : JSDate :=
  let t := 12 * dt.year + (dt.month - 1) + n
  let y := t / 12
  let m := t % 12 + 1
  { year := y, month := m, day := min dt.day (daysInMonth y m), ms := dt.ms }

/-- `Date.prototype.setHours(0,0,0,0)`: zero the time of day. -/
def setHours0 (dt : JSDate) : JSDate := { dt with ms := 0 }

/-- Day of week of `dt` (0 = Sunday … 6 = Saturday); 1970-01-01 was a
Thursday. -/
def dayOfWeek (dt : JSDate) : Int := (toDays dt + 4) % 7

/-- `date-fns` `isWeekend`. -/
def isWeekendD (dt : JSDate) : Bool := dayOfWeek dt == 0 || dayOfWeek dt == 6

/-- `date-fns` `nextMonday`: the strictly next Monday after `dt`. -/
def nextMondayD (dt : JSDate) : JSDate :=
  addDaysFwd dt (((7 - dayOfWeek dt) % 7 + 1).toNat)

/-- `date-fns` `differenceInCalendarDays left right`: signed number of
calendar-day boundaries between the two dates (time of day ignored). -/
def differenceInCalendarDays (left right : JSDate) : Int :=
  toDays left - toDays right

/-- `roundDecimals` from the source: `Math.round(value * 10^d) / 10^d`,
where `Math.round` is round-half-up (towards `+∞`). -/
def roundDecimals (value : ℚ) (decimals : ℕ) : ℚ :=
  (⌊value * 10 ^ decimals + 1 / 2⌋ : ℚ) / 10 ^ decimals

/-! ## Data model of the engine -/

inductive LoanType where
  | annuity
  | amortization
deriving DecidableEq, Repr

inductive DayCountBasis where
  | actual365
  | actual360
  | actualActual
deriving DecidableEq, Repr

inductive Periodicity where
  | once
  | monthly
  | quarterly
  | yearly
deriving DecidableEq, Repr

inductive RepaymentType where
  | decreaseTerm
  | decreasePayment
deriving DecidableEq, Repr

structure LoanScheduleEntry where
  paymentDate : JSDate
  paymentAmount : ℚ
  interestAmount : ℚ
  principalAmount : ℚ
  remainingPrincipal : ℚ
  isEarlyRepayment : Bool := false
deriving DecidableEq, Repr

/-- Caller-supplied early-repayment rule.  In the TypeScript interface
`earlyRepaymentAmount` is optional; a valid rule supplies a positive
amount, and the model makes the field mandatory. -/
structure EarlyRepaymentParams where
  earlyRepaymentDateStart : JSDate
  earlyRepaymentDateEnd : Option JSDate := none
  periodicity : Option Periodicity := none
  earlyRepaymentAmount : ℚ := 0
  repaymentType : Option RepaymentType := none
deriving DecidableEq, Repr

structure EarlyRepaymentRecord extends EarlyRepaymentParams where
  id : ℕ
  earlyRepaymentDate : JSDate
deriving DecidableEq, Repr

structure LoanScheduleParams where
  principal : ℚ
  annualInterestRatePercent : ℚ
  loanType : LoanType
  termMonths : Int
  issueDate : JSDate
  paymentDayNumber : Option Int := none
  interestOnlyFirstPeriod : Bool := false
  moveHolidayToNextDay : Bool := false
  dayCountBasis : DayCountBasis := .actual365
  roundingDecimals : ℕ := 2
  earlyRepayments : List EarlyRepaymentParams := []
deriving Repr

structure LoanCalcSharedParams where
  loanType : LoanType
  roundingDecimals : ℕ
  dayCountBasis : DayCountBasis
  annualInterestRatePercent : ℚ
  previousDate : JSDate
  currentDate : JSDate
  nextDate : JSDate
  termMonthsToCalculate : Int
  remainingPrincipal : ℚ
  monthlyInterestRate : ℚ
  amortizationPrincipal : ℚ
  annuityMonthlyPayment : ℚ
  remainingInterestAmount : ℚ
deriving Repr

/-! ## The engine's helper functions -/

/-- `moveToNextDate` from the source.  The body first copies its argument
(`new Date(currentDate)`) and only ever writes to the copy, so the input
object is left untouched; the second component of the returned pair is
the value of the caller's `currentDate` object after the call, making
that explicit. -/
def moveToNextDate (currentDate : JSDate) (paymentDayNumber : Int)
    (moveHolidayToNextDay : Bool) : JSDate × JSDate :=
  let nextDate := currentDate
  let paymentDay := currentDate.day
  let nextDate := if paymentDay ≠ paymentDayNumber then jsSetDate nextDate paymentDayNumber else nextDate
  let nextDate := addMonths nextDate 1
  let nextDate := setHours0 nextDate
  let nextDate :=
    if moveHolidayToNextDay then
      (if isWeekendD nextDate then nextMondayD nextDate else nextDate)
    else nextDate
  (nextDate, currentDate)

/-- The denominator `(1+r)^n - 1` of the closed-form annuity formula.
When the monthly rate is 0 this is 0 and the JavaScript source divides
0 by 0, producing `NaN`. -/
def annuityDenominator (monthlyInterestRate : ℚ) (termMonths : Int) : ℚ :=
  (1 + monthlyInterestRate) ^ termMonths - 1

structure AnnuityDto where
  principal : ℚ
  monthlyInterestRate : ℚ
  termMonths : Int
  roundingDecimals : ℕ

def calculateAnnuityMonthlyPayment (dto : AnnuityDto) : ℚ :=
  roundDecimals
    ((dto.principal * dto.monthlyInterestRate * (1 + dto.monthlyInterestRate) ^ dto.termMonths)
      / annuityDenominator dto.monthlyInterestRate dto.termMonths)
    dto.roundingDecimals

structure MonthYearDays where
  daysInYear : Int
  daysInMonth : Int
deriving DecidableEq, Repr

def getMonthDaysAndYearDays (paymentDate : JSDate) (dayCountBasis : DayCountBasis) :
    MonthYearDays :=
  if dayCountBasis = .actual365 then
    let d := daysInMonth paymentDate.year paymentDate.month
    ⟨365, if d = 29 then 28 else d⟩
  else if dayCountBasis = .actualActual then
    ⟨if isLeapYearB paymentDate.year then 366 else 365,
     daysInMonth paymentDate.year paymentDate.month⟩
  else ⟨360, 30⟩

/-! ## The early-repayment registry -/

/-- The source keeps rules in a `Record<number, EarlyRepaymentRecord>`
keyed by registration index; `Object.keys`/`Object.values` list the
surviving entries in ascending key order.  Model: a fixed-length list
whose `i`-th slot holds the rule with id `i`, `none` once deleted. -/
abbrev Registry := List (Option EarlyRepaymentRecord)

def registrySet (records : Registry) (i : ℕ) (v : Option EarlyRepaymentRecord) : Registry :=
  records.set i v

/-- Stable insertion of `a` into a list sorted by `earlyRepaymentDate`
(`getTime` key): `a` goes after existing elements with an equal key,
mirroring the stability of `Array.prototype.sort`. -/
def insertByDate (a : EarlyRepaymentRecord) :
    List EarlyRepaymentRecord → List EarlyRepaymentRecord
  | [] => [a]
  | b :: l =>
    if getTime a.earlyRepaymentDate < getTime b.earlyRepaymentDate then a :: b :: l
    else b :: insertByDate a l

def sortByDate (l : List EarlyRepaymentRecord) : List EarlyRepaymentRecord :=
  l.foldl (fun acc a => insertByDate a acc) []

/-- The window filter of `getNextEarlyRepayment`: drop a rule whose end
bound has passed, keep those due strictly after `currentDate` and on or
before `nextDate` (comparisons are `getTime` comparisons on `Date`s). -/
def erWindowFilter (currentDate nextDate : JSDate) (er : EarlyRepaymentRecord) : Bool :=
  (match er.earlyRepaymentDateEnd with
   | some e => !(getTime e < getTime currentDate)
   | none => true)
  && (getTime currentDate < getTime er.earlyRepaymentDate)
  && (getTime er.earlyRepaymentDate ≤ getTime nextDate)

def getNextEarlyRepayment (records : Registry) (currentDate nextDate : JSDate) :
    List EarlyRepaymentRecord :=
  let vals := records.filterMap id
  if vals.isEmpty then []
  else
    let onceList := sortByDate (vals.filter (fun er => er.periodicity == some .once))
    let monthlyList := sortByDate (vals.filter (fun er => er.periodicity == some .monthly))
    let quarterlyList := sortByDate (vals.filter (fun er => er.periodicity == some .quarterly))
    let yearlyList := sortByDate (vals.filter (fun er => er.periodicity == some .yearly))
    sortByDate
      (([onceList.head?, monthlyList.head?, quarterlyList.head?, yearlyList.head?].filterMap id).filter
        (erWindowFilter currentDate nextDate))

/-! ## Applying early repayments -/

/-- Interest accrued from the previous anchor date to the rule's due date
(lines 445–458 of the source). -/
def earlyRepaymentAccruedInterest (sharedParams : LoanCalcSharedParams)
    (earlyRepayment : EarlyRepaymentRecord) : ℚ :=
  let dayDifference :=
    differenceInCalendarDays earlyRepayment.earlyRepaymentDate sharedParams.currentDate
  let md := getMonthDaysAndYearDays earlyRepayment.earlyRepaymentDate sharedParams.dayCountBasis
  roundDecimals
    (sharedParams.remainingPrincipal
      * (sharedParams.annualInterestRatePercent / 100 / (md.daysInYear : ℚ))
      * (dayDifference : ℚ))
    sharedParams.roundingDecimals

structure EarlyRepaymentApplication where
  updatedSharedParams : LoanCalcSharedParams
  loanSchedule : LoanScheduleEntry
  deleteEarlyRepayment : Bool
  updatedEarlyRepayment : Option EarlyRepaymentRecord
  /-- The record value after the in-place mutations done by the body: the
  `switch` advances `earlyRepaymentDate` on the record object itself,
  which the caller's registry aliases, so the advance persists even when
  the delete/update bookkeeping is skipped. -/
  mutatedRecord : EarlyRepaymentRecord

def applyEarlyRepayment (sharedParams : LoanCalcSharedParams)
    (earlyRepayment : EarlyRepaymentRecord) : EarlyRepaymentApplication :=
  let interestAmount := earlyRepaymentAccruedInterest sharedParams earlyRepayment
  let branchResult : LoanCalcSharedParams × LoanScheduleEntry :=
    if earlyRepayment.earlyRepaymentAmount ≤ interestAmount then
      ({ sharedParams with
          remainingInterestAmount :=
            roundDecimals (interestAmount - earlyRepayment.earlyRepaymentAmount)
              sharedParams.roundingDecimals },
       { paymentDate := earlyRepayment.earlyRepaymentDate
         paymentAmount := earlyRepayment.earlyRepaymentAmount
         interestAmount := earlyRepayment.earlyRepaymentAmount
         principalAmount := 0
         remainingPrincipal := sharedParams.remainingPrincipal
         isEarlyRepayment := true })
    else
      let paymentAmount0 := earlyRepayment.earlyRepaymentAmount
      let principalAmount0 :=
        roundDecimals (earlyRepayment.earlyRepaymentAmount - interestAmount)
          sharedParams.roundingDecimals
      let rem0 :=
        roundDecimals (sharedParams.remainingPrincipal - principalAmount0)
          sharedParams.roundingDecimals
      let (principalAmount, paymentAmount, rem) :=
        if rem0 < 0 then (principalAmount0 + rem0, paymentAmount0 + rem0, (0 : ℚ))
        else (principalAmount0, paymentAmount0, rem0)
      ({ sharedParams with remainingPrincipal := rem },
       { paymentDate := earlyRepayment.earlyRepaymentDate
         paymentAmount := paymentAmount
         interestAmount := interestAmount
         principalAmount := principalAmount
         remainingPrincipal := rem
         isEarlyRepayment := true })
  let updatedSharedParams := branchResult.1
  let loanSchedule := branchResult.2
  let updatedSharedParams :=
    if sharedParams.loanType = .annuity ∧ earlyRepayment.repaymentType = some .decreasePayment then
      { updatedSharedParams with
          annuityMonthlyPayment := calculateAnnuityMonthlyPayment
            { principal := updatedSharedParams.remainingPrincipal
              monthlyInterestRate := sharedParams.monthlyInterestRate
              termMonths := updatedSharedParams.termMonthsToCalculate
              roundingDecimals := sharedParams.roundingDecimals } }
    else updatedSharedParams
  let updatedSharedParams :=
    if sharedParams.loanType = .amortization then
      { updatedSharedParams with
          amortizationPrincipal :=
            roundDecimals
              (updatedSharedParams.remainingPrincipal
                / (updatedSharedParams.termMonthsToCalculate : ℚ))
              sharedParams.roundingDecimals }
    else updatedSharedParams
  let updatedSharedParams :=
    { updatedSharedParams with
        previousDate := updatedSharedParams.currentDate
        currentDate := earlyRepayment.earlyRepaymentDate }
  let advanced : EarlyRepaymentRecord :=
    match earlyRepayment.periodicity with
    | some .monthly =>
      { earlyRepayment with earlyRepaymentDate := addMonths earlyRepayment.earlyRepaymentDate 1 }
    | some .quarterly =>
      { earlyRepayment with earlyRepaymentDate := addMonths earlyRepayment.earlyRepaymentDate 3 }
    | some .yearly =>
      { earlyRepayment with earlyRepaymentDate := addMonths earlyRepayment.earlyRepaymentDate 12 }
    | _ => earlyRepayment
  let deleteFlag := earlyRepayment.periodicity == some .once
  let updatedOpt : Option EarlyRepaymentRecord :=
    if earlyRepayment.periodicity = some .once then none else some advanced
  let (deleteFlag, updatedOpt) :=
    match updatedOpt with
    | some u =>
      match u.earlyRepaymentDateEnd with
      | some e =>
        if getTime e < getTime u.earlyRepaymentDate then (true, (none : Option EarlyRepaymentRecord))
        else (deleteFlag, some u)
      | none => (deleteFlag, some u)
    | none => (deleteFlag, none)
  { updatedSharedParams := updatedSharedParams
    loanSchedule := loanSchedule
    deleteEarlyRepayment := deleteFlag
    updatedEarlyRepayment := updatedOpt
    mutatedRecord := advanced }

structure EarlyRepaymentsApplication where
  updatedSharedParams : LoanCalcSharedParams
  loanSchedule : List LoanScheduleEntry
  registry : Registry

/-- The per-window loop of `applyEarlyRepayments`.  Faithful to the
source, every rule in the batch is applied against the ORIGINAL
`sharedParams` (the loop passes `sharedParams`, not the accumulator, to
`applyEarlyRepayment`), the accumulator keeps only the last result, and
when remaining principal drops to `≤ 0` the loop clamps to 0 and breaks
before the delete/update bookkeeping of that rule. -/
def applyEarlyRepaymentsGo (sharedParams : LoanCalcSharedParams) :
    List EarlyRepaymentRecord → Registry → LoanCalcSharedParams →
    List LoanScheduleEntry → EarlyRepaymentsApplication
  | [], records, acc, entries => ⟨acc, entries, records⟩
  | er :: rest, records, _acc, entries =>
    let result := applyEarlyRepayment sharedParams er
    let records := registrySet records er.id (some result.mutatedRecord)
    let acc := result.updatedSharedParams
    let entries := entries ++ [result.loanSchedule]
    if acc.remainingPrincipal ≤ 0 then
      ⟨{ acc with remainingPrincipal := 0 }, entries, records⟩
    else
      let records := if result.deleteEarlyRepayment then registrySet records er.id none else records
      let records :=
        match result.updatedEarlyRepayment with
        | some u => registrySet records u.id (some u)
        | none => records
      applyEarlyRepaymentsGo sharedParams rest records acc entries

def applyEarlyRepayments (sharedParams : LoanCalcSharedParams)
    (orderedEarlyRepayments : List EarlyRepaymentRecord) (records : Registry) :
    EarlyRepaymentsApplication :=
  applyEarlyRepaymentsGo sharedParams orderedEarlyRepayments records sharedParams []

/-! ## The month-by-month loop -/

/-- The interest line of a regular period (lines 166–182): the pending
interest carry when one is set, otherwise a fresh day-count computation
between the two anchor dates. -/
def regularInterest (sharedParams : LoanCalcSharedParams) : ℚ :=
  let dayDifference :=
    differenceInCalendarDays sharedParams.nextDate sharedParams.currentDate
  let md := getMonthDaysAndYearDays sharedParams.nextDate sharedParams.dayCountBasis
  if sharedParams.remainingInterestAmount ≠ 0 then sharedParams.remainingInterestAmount
  else
    roundDecimals
      (sharedParams.remainingPrincipal
        * (sharedParams.annualInterestRatePercent / 100 / (md.daysInYear : ℚ))
        * (dayDifference : ℚ))
      sharedParams.roundingDecimals

/-- Loop-constant data of one `generateLoanSchedule` call. -/
structure LoanCtx where
  termMonths : ℕ
  paymentDayNumber : Int
  interestOnlyFirstPeriod : Bool
  moveHolidayToNextDay : Bool

structure LoopState where
  sp : LoanCalcSharedParams
  records : Registry

/-- Advance the anchor dates at the end of an iteration (lines 256–262). -/
def advanceDates (ctx : LoanCtx) (sp : LoanCalcSharedParams) : LoanCalcSharedParams :=
  { sp with
      previousDate := sp.currentDate
      currentDate := sp.nextDate
      nextDate := (moveToNextDate sp.nextDate ctx.paymentDayNumber ctx.moveHolidayToNextDay).1 }

inductive StepOut where
  | halt (entries : List LoanScheduleEntry)
  | cont (st : LoopState) (entries : List LoanScheduleEntry)

def StepOut.entries : StepOut → List LoanScheduleEntry
  | .halt es => es
  | .cont _ es => es

/-- One iteration of the `while (remainingTermMonths > 0)` loop
(lines 135–264).  `halt` models `break`, `cont` both `continue` and the
normal fall-through (both decrement the remaining term by one). -/
def loanStep (ctx : LoanCtx) (remainingTermMonths : ℕ) (st : LoopState) : StepOut :=
  let sp := { st.sp with remainingInterestAmount := 0 }
  let nextEarlyRepayment := getNextEarlyRepayment st.records sp.currentDate sp.nextDate
  let (sp, erEntries, records) :=
    if nextEarlyRepayment.isEmpty then (sp, ([] : List LoanScheduleEntry), st.records)
    else
      let app := applyEarlyRepayments sp nextEarlyRepayment st.records
      (app.updatedSharedParams, app.loanSchedule, app.registry)
  let interestAmount := regularInterest sp
  if remainingTermMonths = ctx.termMonths ∧ ctx.interestOnlyFirstPeriod = true then
    .cont ⟨advanceDates ctx sp, records⟩
      (erEntries ++ [{ paymentDate := sp.nextDate
                       paymentAmount := interestAmount
                       interestAmount := interestAmount
                       principalAmount := 0
                       remainingPrincipal := sp.remainingPrincipal }])
  else if remainingTermMonths = 1 ∨
      (sp.loanType = .annuity ∧ sp.remainingPrincipal ≤ sp.annuityMonthlyPayment) then
    .halt
      (erEntries ++ [{ paymentDate := sp.nextDate
                       paymentAmount :=
                         roundDecimals (sp.remainingPrincipal + interestAmount) sp.roundingDecimals
                       interestAmount := interestAmount
                       principalAmount := sp.remainingPrincipal
                       remainingPrincipal := 0 }])
  else
    match sp.loanType with
    | .annuity =>
      let principalAmount :=
        roundDecimals (sp.annuityMonthlyPayment - interestAmount) sp.roundingDecimals
      let rem := roundDecimals (sp.remainingPrincipal - principalAmount) sp.roundingDecimals
      let sp := { sp with remainingPrincipal := rem }
      .cont ⟨advanceDates ctx sp, records⟩
        (erEntries ++ [{ paymentDate := sp.nextDate
                         paymentAmount := sp.annuityMonthlyPayment
                         interestAmount := interestAmount
                         principalAmount := principalAmount
                         remainingPrincipal := rem }])
    | .amortization =>
      let rem := roundDecimals (sp.remainingPrincipal - sp.amortizationPrincipal) sp.roundingDecimals
      let paymentAmount := roundDecimals (sp.amortizationPrincipal + interestAmount) sp.roundingDecimals
      let sp := { sp with remainingPrincipal := rem }
      .cont ⟨advanceDates ctx sp, records⟩
        (erEntries ++ [{ paymentDate := sp.nextDate
                         paymentAmount := paymentAmount
                         interestAmount := interestAmount
                         principalAmount := sp.amortizationPrincipal
                         remainingPrincipal := rem }])

def loanLoop (ctx : LoanCtx) : ℕ → LoopState → List LoanScheduleEntry
  | 0, _ => []
  | r + 1, st =>
    match loanStep ctx (r + 1) st with
    | .halt entries => entries
    | .cont st2 entries => entries ++ loanLoop ctx r st2

/-! ## The entry point -/

structure LoanScheduleResult where
  schedule : List LoanScheduleEntry
  startMonthlyPayment : ℚ
deriving Repr

def initRecords (earlyRepayments : List EarlyRepaymentParams) : Registry :=
  earlyRepayments.enum.map fun p =>
    some { toEarlyRepaymentParams := p.2
           id := p.1
           earlyRepaymentDate := p.2.earlyRepaymentDateStart }

/-- `generateLoanSchedule`.  The second component of the result is the
value of the caller's `issueDate` object after the call: the source
executes `issueDate.setHours(0,0,0,0)` on it — before validation — so it
comes back with the time of day zeroed on every path, error paths
included. -/
def generateLoanSchedule (params : LoanScheduleParams) :
    Except String LoanScheduleResult × JSDate :=
  let issueDate := setHours0 params.issueDate
  if params.principal ≤ 0 then (.error "principal must be > 0", issueDate)
  else if params.termMonths ≤ 0 then (.error "termMonths must be > 0", issueDate)
  else if params.annualInterestRatePercent < 0 then
    (.error "annualInterestRatePercent must be >= 0", issueDate)
  else
    let records := initRecords params.earlyRepayments
    let paymentDayNumber := params.paymentDayNumber.getD issueDate.day
    let termMonthsToCalculate :=
      if params.interestOnlyFirstPeriod then params.termMonths - 2 else params.termMonths
    let monthlyInterestRate := params.annualInterestRatePercent / 12 / 100
    let sharedParams : LoanCalcSharedParams :=
      { loanType := params.loanType
        roundingDecimals := params.roundingDecimals
        dayCountBasis := params.dayCountBasis
        annualInterestRatePercent := params.annualInterestRatePercent
        previousDate := issueDate
        currentDate := issueDate
        nextDate := (moveToNextDate issueDate paymentDayNumber params.moveHolidayToNextDay).1
        termMonthsToCalculate := termMonthsToCalculate
        remainingPrincipal := params.principal
        monthlyInterestRate := monthlyInterestRate
        amortizationPrincipal := params.principal / (termMonthsToCalculate : ℚ)
        annuityMonthlyPayment := calculateAnnuityMonthlyPayment
          { principal := params.principal
            monthlyInterestRate := monthlyInterestRate
            termMonths := termMonthsToCalculate
            roundingDecimals := params.roundingDecimals }
        remainingInterestAmount := 0 }
    let startMonthlyPayment :=
      match params.loanType with
      | .annuity => sharedParams.annuityMonthlyPayment
      | .amortization => sharedParams.amortizationPrincipal
    let ctx : LoanCtx :=
      { termMonths := params.termMonths.toNat
        paymentDayNumber := paymentDayNumber
        interestOnlyFirstPeriod := params.interestOnlyFirstPeriod
        moveHolidayToNextDay := params.moveHolidayToNextDay }
    let schedule := loanLoop ctx params.termMonths.toNat ⟨sharedParams, records⟩
    (.ok { schedule := schedule, startMonthlyPayment := startMonthlyPayment }, issueDate)

/-! ## Observation helpers and concrete inputs used by the theorems -/

/-- The schedule of a successful run (empty list on a validation error). -/
def scheduleOf (p : LoanScheduleParams) : List LoanScheduleEntry :=
  match (generateLoanSchedule p).1 with
  | .ok r => r.schedule
  | .error _ => []

/-- The nominal starting payment of a successful run (0 on an error). -/
def startMonthlyPaymentOf (p : LoanScheduleParams) : ℚ :=
  match (generateLoanSchedule p).1 with
  | .ok r => r.startMonthlyPayment
  | .error _ => 0

/-- A valid input (differentiated, zero rate, rounding to whole units) on
which rounding drift drives the tracked remaining principal negative:
5 / 8 = 0.625 rounds to a 1-unit decrement until the balance crosses
zero and keeps being decremented below it. -/
def negDriftParams : LoanScheduleParams :=
  { principal := 5
    annualInterestRatePercent := 0
    loanType := .amortization
    termMonths := 8
    issueDate := ⟨2024, 1, 15, 0⟩
    roundingDecimals := 0 }

/-- Scenario A of the spec, differentiated variant: 12000 at 0 % over 12
months. -/
def scenarioAParams : LoanScheduleParams :=
  { principal := 12000
    annualInterestRatePercent := 0
    loanType := .amortization
    termMonths := 12
    issueDate := ⟨2024, 1, 15, 0⟩ }

/-- ACTUAL_360 run whose first period spans 31 calendar days
(2024-01-15 → 2024-02-15). -/
def actual360Params : LoanScheduleParams :=
  { principal := 120000
    annualInterestRatePercent := 12
    loanType := .amortization
    termMonths := 2
    issueDate := ⟨2024, 1, 15, 0⟩
    dayCountBasis := .actual360 }

/-- Interest-only first period, 12 months: exposes the divisor the
engine actually uses for the per-period principal. -/
def interestOnlyParams : LoanScheduleParams :=
  { principal := 1000
    annualInterestRatePercent := 0
    loanType := .amortization
    termMonths := 12
    issueDate := ⟨2024, 1, 15, 0⟩
    interestOnlyFirstPeriod := true }

/-- A ONCE early repayment of 100 due 2024-01-25, ten days into the
first period: the interest accrued by then (333.33) exceeds the amount,
so the rule is consumed as pure interest and leaves a carry. -/
def carryParams : LoanScheduleParams :=
  { principal := 100000
    annualInterestRatePercent := 12
    loanType := .amortization
    termMonths := 3
    issueDate := ⟨2024, 1, 15, 0⟩
    dayCountBasis := .actual360
    earlyRepayments := [{ earlyRepaymentDateStart := ⟨2024, 1, 25, 0⟩
                          periodicity := some .once
                          earlyRepaymentAmount := 100 }] }

/-- An input rejected by validation (principal 0) whose issue date has a
non-zero time of day, to observe the pre-validation mutation. -/
def rejectedParams : LoanScheduleParams :=
  { principal := 0
    annualInterestRatePercent := 5
    loanType := .annuity
    termMonths := 12
    issueDate := ⟨2024, 1, 15, 7777⟩ }

/-- A concrete mid-loop engine state (differentiated loan, ACTUAL_360,
anchor window 2024-01-15 → 2024-02-14, i.e. exactly 30 calendar days)
used to instantiate the hypothesis-bearing theorems. -/
def spSample : LoanCalcSharedParams :=
  { loanType := .amortization
    roundingDecimals := 2
    dayCountBasis := .actual360
    annualInterestRatePercent := 12
    previousDate := ⟨2024, 1, 15, 0⟩
    currentDate := ⟨2024, 1, 15, 0⟩
    nextDate := ⟨2024, 2, 14, 0⟩
    termMonthsToCalculate := 3
    remainingPrincipal := 100000
    monthlyInterestRate := 12 / 12 / 100
    amortizationPrincipal := 100000 / 3
    annuityMonthlyPayment := 0
    remainingInterestAmount := 0 }

/-- A concrete ONCE early-repayment record due 2024-01-25, amount 100
(at most the interest accrued over the ten days since 2024-01-15). -/
def erSample : EarlyRepaymentRecord :=
  { earlyRepaymentDateStart := ⟨2024, 1, 25, 0⟩
    periodicity := some .once
    earlyRepaymentAmount := 100
    id := 0
    earlyRepaymentDate := ⟨2024, 1, 25, 0⟩ }

def ctxSample : LoanCtx :=
  { termMonths := 3
    paymentDayNumber := 15
    interestOnlyFirstPeriod := false
    moveHolidayToNextDay := false }

/-- An annuity state whose remaining principal has already reached 0,
with an empty registry. -/
def stSampleAnnuity : LoopState :=
  { sp :=
      { spSample with
          loanType := .annuity
          remainingPrincipal := 0
          annuityMonthlyPayment := 500 }
    records := [] }

/-- A loop state holding `spSample` together with the single pending rule
`erSample`. -/
def stSampleCarry : LoopState :=
  { sp := spSample
    records := [some erSample] }

/-- A ONCE rule due 2024-01-25 whose amount 333.33 is exactly the rounded
interest accrued over the ten days since 2024-01-15 at 12 % ACTUAL_360 on
100000, so the shortfall is exactly 0. -/
def erSampleEq : EarlyRepaymentRecord :=
  { earlyRepaymentDateStart := ⟨2024, 1, 25, 0⟩
    periodicity := some .once
    earlyRepaymentAmount := 33333/100
    id := 0
    earlyRepaymentDate := ⟨2024, 1, 25, 0⟩ }

/-- `spSample` together with the single pending rule `erSampleEq`. -/
def stSampleEq : LoopState :=
  { sp := spSample
    records := [some erSampleEq] }

/-! ## Sanity checks of the calendar model on known dates -/

theorem sanity_epoch_toDays : toDays ⟨1970, 1, 1, 0⟩ = 0 := by decide

theorem sanity_leap_2024 : daysInMonth 2024 2 = 29 ∧ daysInMonth 2023 2 = 28 := by decide

theorem sanity_dow_2024_01_15 : dayOfWeek ⟨2024, 1, 15, 0⟩ = 1 := by decide

theorem sanity_addMonths_clamp :
    addMonths ⟨2024, 1, 31, 0⟩ 1 = ⟨2024, 2, 29, 0⟩ := by decide

theorem sanity_setDate_overflow :
    jsSetDate ⟨2023, 2, 15, 0⟩ 31 = ⟨2023, 3, 3, 0⟩ := by decide

theorem sanity_diffDays :
    differenceInCalendarDays ⟨2024, 2, 15, 0⟩ ⟨2024, 1, 15, 0⟩ = 31 := by decide

/-! ## Small date lemmas -/

theorem nextDay_ms (dt : JSDate) : (nextDay dt).ms = dt.ms := by
  unfold nextDay; split_ifs <;> rfl

theorem addDaysFwd_ms (dt : JSDate) (k : ℕ) : (addDaysFwd dt k).ms = dt.ms := by
  induction k generalizing dt with
  | zero => rfl
  | succ n ih => rw [addDaysFwd, ih, nextDay_ms]

theorem nextMondayD_ms (dt : JSDate) : (nextMondayD dt).ms = dt.ms := by
  unfold nextMondayD; exact addDaysFwd_ms dt _

theorem daysInMonth_bounds (y m : Int) :
    28 ≤ daysInMonth y m ∧ daysInMonth y m ≤ 31 := by
  unfold daysInMonth
  split_ifs <;> norm_num

theorem isLeapYearB_iff (y : Int) :
    isLeapYearB y = true ↔ ((y % 4 = 0 ∧ y % 100 ≠ 0) ∨ y % 400 = 0) := by
  unfold isLeapYearB
  simp [Bool.or_eq_true, Bool.and_eq_true, beq_iff_eq, bne_iff_ne]

/-- Stepping to the next calendar day advances the day count by one. -/
theorem toDays_nextDay (dt : JSDate) (h : ValidDate dt) :
    toDays (nextDay dt) = toDays dt + 1 := by
  obtain ⟨hm1, hm2, hd1, hd2⟩ := h
  unfold nextDay
  split_ifs with h1 h2
  · simp only [toDays]
    ring
  · have hd : dt.day = daysInMonth dt.year dt.month := le_antisymm hd2 (not_lt.mp h1)
    simp only [toDays, hd]
    have hm : 1 ≤ dt.month ∧ dt.month ≤ 11 := ⟨hm1, by omega⟩
    rcases hm with ⟨-, -⟩
    interval_cases hmv : dt.month <;>
      · by_cases hL : isLeapYearB dt.year = true <;>
          simp [monthOffset, daysInMonth, hL] <;> omega
  · have hm : dt.month = 12 := by omega
    have hd : dt.day = daysInMonth dt.year dt.month := le_antisymm hd2 (not_lt.mp h1)
    by_cases hLy : isLeapYearB dt.year = true
    · have harith := (isLeapYearB_iff dt.year).mp hLy
      simp only [toDays, hd, hm, daysInMonth, monthOffset, leapCount, hLy]
      norm_num
      omega
    · have harith : ¬ ((dt.year % 4 = 0 ∧ dt.year % 100 ≠ 0) ∨ dt.year % 400 = 0) :=
        fun hx => hLy ((isLeapYearB_iff dt.year).mpr hx)
      have hF : isLeapYearB dt.year = false := by
        revert hLy
        cases isLeapYearB dt.year <;> simp
      push_neg at harith
      simp only [toDays, hd, hm, daysInMonth, monthOffset, leapCount, hF]
      norm_num
      omega

/-- Stepping to the next calendar day preserves validity. -/
theorem validDate_nextDay (dt : JSDate) (h : ValidDate dt) :
    ValidDate (nextDay dt) := by
  obtain ⟨hm1, hm2, hd1, hd2⟩ := h
  have hb1 := daysInMonth_bounds dt.year (dt.month + 1)
  have hb2 := daysInMonth_bounds (dt.year + 1) 1
  unfold nextDay ValidDate
  split_ifs with h1 h2 <;> dsimp only <;>
    exact ⟨by omega, by omega, by omega, by omega⟩

theorem toDays_addDaysFwd (dt : JSDate) (k : ℕ) (h : ValidDate dt) :
    toDays (addDaysFwd dt k) = toDays dt + k ∧ ValidDate (addDaysFwd dt k) := by
  induction k generalizing dt with
  | zero =>
    refine ⟨?_, h⟩
    rw [show addDaysFwd dt 0 = dt from rfl]
    simp
  | succ n ih =>
    rw [addDaysFwd]
    obtain ⟨h1, h2⟩ := ih (nextDay dt) (validDate_nextDay dt h)
    refine ⟨?_, h2⟩
    rw [h1, toDays_nextDay dt h]
    push_cast
    ring

/-- As long as the day stays within the month, `addDaysFwd` just moves
the day-of-month. -/
theorem addDaysFwd_in_month (y m a ms : Int) (k : ℕ)
    (h : ValidDate ⟨y, m, a, ms⟩) (hk : a + k ≤ daysInMonth y m) :
    addDaysFwd ⟨y, m, a, ms⟩ k = ⟨y, m, a + k, ms⟩ := by
  induction k generalizing a with
  | zero => simp [addDaysFwd]
  | succ n ih =>
    obtain ⟨hm1, hm2, hd1, hd2⟩ := h
    dsimp only at hm1 hm2 hd1 hd2
    rw [addDaysFwd]
    have hlt : a < daysInMonth y m := by push_cast at hk; omega
    have hnd : nextDay ⟨y, m, a, ms⟩ = ⟨y, m, a + 1, ms⟩ := by
      unfold nextDay
      dsimp only
      rw [if_pos hlt]
    have hval : ValidDate ⟨y, m, a + 1, ms⟩ := by
      refine ⟨?_, ?_, ?_, ?_⟩ <;> dsimp only <;> omega
    rw [hnd, ih (a + 1) hval (by push_cast at *; omega)]
    congr 1
    push_cast
    ring

theorem addDaysFwd_add (dt : JSDate) (a b : ℕ) :
    addDaysFwd dt (a + b) = addDaysFwd (addDaysFwd dt a) b := by
  induction a generalizing dt with
  | zero => rw [Nat.zero_add]; rfl
  | succ n ih =>
    rw [Nat.succ_add]
    rw [show addDaysFwd dt (n + b).succ = addDaysFwd (nextDay dt) (n + b) from rfl]
    rw [show addDaysFwd dt n.succ = addDaysFwd (nextDay dt) n from rfl]
    exact ih (nextDay dt)

theorem daysInMonth_12 (y : Int) : daysInMonth y 12 = 31 := by
  unfold daysInMonth
  norm_num

/-- First-of-month day counts across a month boundary. -/
theorem monthBase (y m ms1 ms2 : Int) (hm1 : 1 ≤ m) (hm2 : m ≤ 11) :
    toDays ⟨y, m + 1, 1, ms1⟩ = toDays ⟨y, m, 1, ms2⟩ + daysInMonth y m := by
  have hb := daysInMonth_bounds y m
  have hv : ValidDate ⟨y, m, daysInMonth y m, ms1⟩ := by
    refine ⟨?_, ?_, ?_, ?_⟩ <;> dsimp only <;> omega
  have h1 := toDays_nextDay _ hv
  have hnd : nextDay ⟨y, m, daysInMonth y m, ms1⟩ = ⟨y, m + 1, 1, ms1⟩ := by
    unfold nextDay
    dsimp only
    rw [if_neg (lt_irrefl _), if_pos (by omega)]
  rw [hnd] at h1
  rw [h1]
  simp only [toDays]
  ring

/-- First-of-month day counts across the year boundary. -/
theorem yearBase (y ms1 ms2 : Int) :
    toDays ⟨y + 1, 1, 1, ms1⟩ = toDays ⟨y, 12, 1, ms2⟩ + 31 := by
  have hv : ValidDate ⟨y, 12, 31, ms1⟩ := by
    refine ⟨?_, ?_, ?_, ?_⟩ <;> dsimp only <;> simp [daysInMonth_12]
  have h1 := toDays_nextDay _ hv
  have hnd : nextDay ⟨y, 12, 31, ms1⟩ = ⟨y + 1, 1, 1, ms1⟩ := by
    unfold nextDay
    dsimp only
    rw [if_neg (by rw [daysInMonth_12]; exact lt_irrefl _), if_neg (by omega)]
  rw [hnd] at h1
  rw [h1]
  simp only [toDays]
  ring

/-- A valid date lies strictly before the first of the next month. -/
theorem toDays_lt_base_dim (x : JSDate) (h : ValidDate x) :
    toDays x < toDays ⟨x.year, x.month, 1, 0⟩ + daysInMonth x.year x.month := by
  obtain ⟨hm1, hm2, hd1, hd2⟩ := h
  simp only [toDays]
  omega

/-- Adding one month lands at or after the first of the next month, and
preserves validity. -/
theorem addMonths_one (x : JSDate) (h : ValidDate x) :
    toDays ⟨x.year, x.month, 1, 0⟩ + daysInMonth x.year x.month ≤ toDays (addMonths x 1) ∧
    ValidDate (addMonths x 1) := by
  obtain ⟨hm1, hm2, hd1, hd2⟩ := h
  unfold addMonths
  dsimp only
  by_cases hm : x.month ≤ 11
  · have hy : (12 * x.year + (x.month - 1) + 1) / 12 = x.year := by omega
    have hmm : (12 * x.year + (x.month - 1) + 1) % 12 + 1 = x.month + 1 := by omega
    rw [hy, hmm]
    have hdimb := daysInMonth_bounds x.year (x.month + 1)
    have hb := monthBase x.year x.month 0 0 hm1 hm
    constructor
    · simp only [toDays] at hb ⊢
      omega
    · refine ⟨?_, ?_, ?_, ?_⟩ <;> dsimp only <;> omega
  · have hm12 : x.month = 12 := by omega
    have hy : (12 * x.year + (x.month - 1) + 1) / 12 = x.year + 1 := by omega
    have hmm : (12 * x.year + (x.month - 1) + 1) % 12 + 1 = 1 := by omega
    rw [hy, hmm]
    have hdimb := daysInMonth_bounds (x.year + 1) 1
    have hb := yearBase x.year 0 0
    have hd12 := daysInMonth_12 x.year
    constructor
    · rw [hm12]
      simp only [toDays] at hb ⊢
      omega
    · refine ⟨?_, ?_, ?_, ?_⟩ <;> dsimp only <;> omega

/-- `jsSetDate` with a day number in 1–31 yields a valid date whose
month window starts no earlier than the input's. -/
theorem jsSetDate_lb (d : JSDate) (pd : Int) (h : ValidDate d)
    (hpd1 : 1 ≤ pd) (hpd2 : pd ≤ 31) :
    ValidDate (jsSetDate d pd) ∧
    toDays ⟨d.year, d.month, 1, 0⟩ + daysInMonth d.year d.month ≤
      toDays ⟨(jsSetDate d pd).year, (jsSetDate d pd).month, 1, 0⟩ +
        daysInMonth (jsSetDate d pd).year (jsSetDate d pd).month := by
  obtain ⟨hm1, hm2, hd1, hd2⟩ := h
  have hb := daysInMonth_bounds d.year d.month
  have hfirst : ValidDate ⟨d.year, d.month, 1, d.ms⟩ := by
    refine ⟨?_, ?_, ?_, ?_⟩ <;> dsimp only <;> omega
  have hset : jsSetDate d pd = addDaysFwd ⟨d.year, d.month, 1, d.ms⟩ (pd - 1).toNat := by
    unfold jsSetDate addDaysInt
    rw [if_pos (by omega)]
  by_cases hcase : pd ≤ daysInMonth d.year d.month
  · have hland : jsSetDate d pd = ⟨d.year, d.month, pd, d.ms⟩ := by
      rw [hset, addDaysFwd_in_month _ _ _ _ _ hfirst (by omega)]
      congr 1
      omega
    rw [hland]
    refine ⟨⟨hm1, hm2, by dsimp only; omega, by dsimp only; omega⟩, le_of_eq rfl⟩
  · -- the day number overflows into the next month
    have hsplit : (pd - 1).toNat =
        (daysInMonth d.year d.month - 1).toNat + (pd - daysInMonth d.year d.month).toNat := by
      omega
    have hstep1 : addDaysFwd ⟨d.year, d.month, 1, d.ms⟩ (daysInMonth d.year d.month - 1).toNat =
        ⟨d.year, d.month, daysInMonth d.year d.month, d.ms⟩ := by
      rw [addDaysFwd_in_month _ _ _ _ _ hfirst (by omega)]
      congr 1
      omega
    have hsplit2 : (pd - daysInMonth d.year d.month).toNat =
        1 + (pd - daysInMonth d.year d.month - 1).toNat := by
      omega
    have hlast : ValidDate ⟨d.year, d.month, daysInMonth d.year d.month, d.ms⟩ := by
      refine ⟨?_, ?_, ?_, ?_⟩ <;> dsimp only <;> omega
    by_cases hm : d.month ≤ 11
    · have hnd : nextDay ⟨d.year, d.month, daysInMonth d.year d.month, d.ms⟩ =
          ⟨d.year, d.month + 1, 1, d.ms⟩ := by
        unfold nextDay
        dsimp only
        rw [if_neg (lt_irrefl _), if_pos (by omega)]
      have hdim2 := daysInMonth_bounds d.year (d.month + 1)
      have hfirst2 : ValidDate ⟨d.year, d.month + 1, 1, d.ms⟩ := by
        refine ⟨?_, ?_, ?_, ?_⟩ <;> dsimp only <;> omega
      have hland : jsSetDate d pd =
          ⟨d.year, d.month + 1, pd - daysInMonth d.year d.month, d.ms⟩ := by
        rw [hset, hsplit, addDaysFwd_add, hstep1, hsplit2, addDaysFwd_add,
          show addDaysFwd ⟨d.year, d.month, daysInMonth d.year d.month, d.ms⟩ 1 =
            nextDay ⟨d.year, d.month, daysInMonth d.year d.month, d.ms⟩ from rfl,
          hnd, addDaysFwd_in_month _ _ _ _ _ hfirst2 (by omega)]
        congr 1
        omega
      rw [hland]
      have hbm := monthBase d.year d.month 0 0 hm1 hm
      refine ⟨⟨by dsimp only; omega, by dsimp only; omega, by dsimp only; omega,
        by dsimp only; omega⟩, ?_⟩
      dsimp only
      omega
    · have hm12 : d.month = 12 := by omega
      have hnd : nextDay ⟨d.year, d.month, daysInMonth d.year d.month, d.ms⟩ =
          ⟨d.year + 1, 1, 1, d.ms⟩ := by
        unfold nextDay
        dsimp only
        rw [if_neg (lt_irrefl _), if_neg (by omega)]
      have hdim2 := daysInMonth_bounds (d.year + 1) 1
      have hfirst2 : ValidDate ⟨d.year + 1, 1, 1, d.ms⟩ := by
        refine ⟨?_, ?_, ?_, ?_⟩ <;> dsimp only <;> omega
      have hland : jsSetDate d pd =
          ⟨d.year + 1, 1, pd - daysInMonth d.year d.month, d.ms⟩ := by
        rw [hset, hsplit, addDaysFwd_add, hstep1, hsplit2, addDaysFwd_add,
          show addDaysFwd ⟨d.year, d.month, daysInMonth d.year d.month, d.ms⟩ 1 =
            nextDay ⟨d.year, d.month, daysInMonth d.year d.month, d.ms⟩ from rfl,
          hnd, addDaysFwd_in_month _ _ _ _ _ hfirst2 (by omega)]
        congr 1
        omega
      rw [hland]
      have hby := yearBase d.year 0 0
      have hd12 := daysInMonth_12 d.year
      refine ⟨⟨by dsimp only; omega, by dsimp only; omega, by dsimp only; omega,
        by dsimp only; omega⟩, ?_⟩
      dsimp only
      rw [hm12]
      simp only [toDays] at hby ⊢
      omega

theorem setHours0_toDays (x : JSDate) : toDays (setHours0 x) = toDays x := rfl

theorem setHours0_valid (x : JSDate) (h : ValidDate x) : ValidDate (setHours0 x) := h

/-- The composed `moveToNextDate` strictly advances the calendar day,
preserves validity, and zeroes the time of day. -/
theorem moveToNextDate_mono (d : JSDate) (pd : Int) (mh : Bool)
    (h : ValidDate d) (hpd1 : 1 ≤ pd) (hpd2 : pd ≤ 31) :
    toDays d < toDays (moveToNextDate d pd mh).1 ∧
    ValidDate (moveToNextDate d pd mh).1 ∧ (moveToNextDate d pd mh).1.ms = 0 := by
  have hlt := toDays_lt_base_dim d h
  have hanch : ∀ a : JSDate, ValidDate a →
      toDays ⟨d.year, d.month, 1, 0⟩ + daysInMonth d.year d.month ≤
        toDays ⟨a.year, a.month, 1, 0⟩ + daysInMonth a.year a.month →
      toDays d < toDays (addMonths a 1) ∧ ValidDate (addMonths a 1) := by
    intro a ha hba
    obtain ⟨h1, h2⟩ := addMonths_one a ha
    exact ⟨by omega, h2⟩
  have hcore : toDays d < toDays (setHours0 (addMonths
        (if d.day ≠ pd then jsSetDate d pd else d) 1)) ∧
      ValidDate (setHours0 (addMonths (if d.day ≠ pd then jsSetDate d pd else d) 1)) := by
    rw [setHours0_toDays]
    by_cases hdp : d.day = pd
    · rw [if_neg (by simp [hdp])]
      exact hanch d h (le_refl _)
    · rw [if_pos hdp]
      obtain ⟨hv, hlb⟩ := jsSetDate_lb d pd h hpd1 hpd2
      exact hanch _ hv hlb
  unfold moveToNextDate
  by_cases hmh : mh = true
  · simp only [hmh, if_true, ite_true]
    by_cases hwk : isWeekendD (setHours0 (addMonths
        (if d.day ≠ pd then jsSetDate d pd else d) 1)) = true
    · simp only [hwk, if_true, ite_true]
      unfold nextMondayD
      obtain ⟨hc1, hc2⟩ := hcore
      obtain ⟨ht, hv⟩ := toDays_addDaysFwd _ (((7 - dayOfWeek (setHours0 (addMonths
        (if d.day ≠ pd then jsSetDate d pd else d) 1))) % 7 + 1).toNat) hc2
      refine ⟨?_, hv, ?_⟩
      · rw [ht]
        omega
      · rw [addDaysFwd_ms]
        rfl
    · simp only [hwk, if_false, ite_false]
      exact ⟨hcore.1, hcore.2, rfl⟩
  · simp only [hmh, if_false, ite_false]
    exact ⟨hcore.1, hcore.2, rfl⟩

/-! ## Claim C8 — `moveToNextDate` is pure and is the four-step
composition -/

/-- C8.  `moveToNextDate` does not mutate its input (the second component
of the modelled call is the caller's object value afterwards, and it is
the untouched input), and the result is exactly: re-anchor the
day-of-month to `paymentDayNumber` when it differs, add one calendar
month, zero the time of day, and, when `moveHolidayToNextDay` is set and
the result is a weekend day, shift to the following Monday.  The result
always has a zeroed time-of-day component. -/
theorem claim_C8_theorem (d : JSDate) (pd : Int) (mh : Bool) :
    (moveToNextDate d pd mh).2 = d ∧
    (moveToNextDate d pd mh).1 =
      (let anchored := if d.day = pd then d else jsSetDate d pd
       let stepped := setHours0 (addMonths anchored 1)
       if mh = true ∧ isWeekendD stepped = true then nextMondayD stepped else stepped) ∧
    (moveToNextDate d pd mh).1.ms = 0 := by
  refine ⟨rfl, ?_, ?_⟩
  · show (moveToNextDate d pd mh).1 = _
    unfold moveToNextDate
    by_cases hd : d.day = pd <;> by_cases hm : mh = true <;> simp [hd, hm]
  · unfold moveToNextDate
    by_cases hd : d.day = pd <;> by_cases hm : mh = true <;>
      simp [hd, hm, setHours0] <;> split_ifs <;>
      simp [nextMondayD_ms, setHours0]

/-! ## Claim C9 — validation is fail-fast and complete -/

/-- C9.  `generateLoanSchedule` succeeds exactly when the three validated
conditions hold (`principal > 0`, `termMonths > 0`, rate `≥ 0`); each
violation yields the corresponding synchronous error, carrying no
schedule at all. -/
theorem claim_C9_theorem (p : LoanScheduleParams) :
    ((generateLoanSchedule p).1.isOk = true ↔
      0 < p.principal ∧ 0 < p.termMonths ∧ 0 ≤ p.annualInterestRatePercent) ∧
    (p.principal ≤ 0 → (generateLoanSchedule p).1 = .error "principal must be > 0") ∧
    (0 < p.principal → p.termMonths ≤ 0 →
      (generateLoanSchedule p).1 = .error "termMonths must be > 0") ∧
    (0 < p.principal → 0 < p.termMonths → p.annualInterestRatePercent < 0 →
      (generateLoanSchedule p).1 = .error "annualInterestRatePercent must be >= 0") := by
  unfold generateLoanSchedule
  split_ifs with h1 h2 h3 h4
  · exact ⟨iff_of_false (by simp [Except.isOk, Except.toBool])
        (fun h => absurd h1 (not_le.mpr h.1)),
      fun _ => rfl,
      fun hp _ => absurd h1 (not_le.mpr hp),
      fun hp _ _ => absurd h1 (not_le.mpr hp)⟩
  · exact ⟨iff_of_false (by simp [Except.isOk, Except.toBool])
        (fun h => absurd h2 (not_le.mpr h.2.1)),
      fun hp => absurd hp h1,
      fun _ _ => rfl,
      fun _ ht _ => absurd h2 (not_le.mpr ht)⟩
  · exact ⟨iff_of_false (by simp [Except.isOk, Except.toBool])
        (fun h => absurd h3 (not_lt.mpr h.2.2)),
      fun hp => absurd hp h1,
      fun _ ht => absurd ht h2,
      fun _ _ _ => rfl⟩
  · exact ⟨iff_of_true rfl ⟨not_le.mp h1, not_le.mp h2, not_lt.mp h3⟩,
      fun hp => absurd hp h1,
      fun _ ht => absurd ht h2,
      fun _ _ hr => absurd hr h3⟩
  · exact ⟨iff_of_true rfl ⟨not_le.mp h1, not_le.mp h2, not_lt.mp h3⟩,
      fun hp => absurd hp h1,
      fun _ ht => absurd ht h2,
      fun _ _ hr => absurd hr h3⟩

/-- C9 witness: a rejected input produces the matching error, a valid
one succeeds. -/
theorem claim_C9_witness :
    (generateLoanSchedule rejectedParams).1 = .error "principal must be > 0" ∧
    (generateLoanSchedule scenarioAParams).1.isOk = true := by
  constructor
  · exact (claim_C9_theorem rejectedParams).2.1 (by norm_num [rejectedParams])
  · exact ((claim_C9_theorem scenarioAParams).1).2 (by norm_num [scenarioAParams])

/-! ## Claim C10 — the issue-date object is mutated before validation -/

/-- C10.  The caller's `issueDate` object comes back with its time of day
zeroed on every path — the `setHours(0,0,0,0)` happens before the
validation checks — so a rejected input still observes the mutation
(`rejectedParams` fails validation yet its issue date is changed). -/
theorem claim_C10_theorem :
    (∀ p : LoanScheduleParams, (generateLoanSchedule p).2 = setHours0 p.issueDate) ∧
    (generateLoanSchedule rejectedParams).1.isOk = false ∧
    (generateLoanSchedule rejectedParams).2.ms = 0 ∧
    rejectedParams.issueDate.ms = 7777 := by
  refine ⟨?_, ?_, ?_, rfl⟩
  · intro p; unfold generateLoanSchedule; split_ifs <;> rfl
  · with_unfolding_all rfl
  · with_unfolding_all rfl

/-! ## Rounding lemmas -/

theorem roundDecimals_nonneg (x : ℚ) (d : ℕ) (hx : 0 ≤ x) : 0 ≤ roundDecimals x d := by
  unfold roundDecimals
  apply div_nonneg _ (by positivity)
  have h : (0 : ℤ) ≤ ⌊x * 10 ^ d + 1 / 2⌋ := by
    apply Int.le_floor.mpr
    have h1 : (0 : ℚ) ≤ x * 10 ^ d := by positivity
    push_cast
    linarith
  exact_mod_cast h

theorem roundDecimals_lb (x : ℚ) (d : ℕ) :
    x - 1 / (2 * 10 ^ d) ≤ roundDecimals x d := by
  unfold roundDecimals
  have hE : (0 : ℚ) < 10 ^ d := by positivity
  have h1 : x * 10 ^ d - 1 / 2 ≤ (⌊x * 10 ^ d + 1 / 2⌋ : ℚ) := by
    have h2 := Int.sub_one_lt_floor (x * 10 ^ d + 1 / 2)
    linarith
  rw [le_div_iff₀ hE]
  calc (x - 1 / (2 * 10 ^ d)) * 10 ^ d = x * 10 ^ d - 1 / 2 := by
        field_simp
        ring
    _ ≤ (⌊x * 10 ^ d + 1 / 2⌋ : ℚ) := h1

/-- `roundDecimals` lands on the grid of multiples of `10^(-d)`. -/
theorem roundDecimals_grid (x : ℚ) (d : ℕ) :
    ∃ k : ℤ, roundDecimals x d = (k : ℚ) / 10 ^ d := ⟨_, rfl⟩

/-- The clamp arithmetic of `applyEarlyRepayment`: a rounded amount plus
the rounded difference of a nonnegative balance and that amount is still
nonnegative (both summands sit on the same rounding grid and their sum is
at least `rem - 10^(-d)/2`). -/
theorem round_pair_nonneg (rem a : ℚ) (d : ℕ) (hrem : 0 ≤ rem) :
    0 ≤ roundDecimals a d + roundDecimals (rem - roundDecimals a d) d := by
  obtain ⟨k1, h1⟩ := roundDecimals_grid a d
  obtain ⟨k2, h2⟩ := roundDecimals_grid (rem - roundDecimals a d) d
  have hE : (0 : ℚ) < 10 ^ d := by positivity
  have hlb := roundDecimals_lb (rem - roundDecimals a d) d
  have hsum : -(1 / (2 * 10 ^ d)) ≤ ((k1 : ℚ) + (k2 : ℚ)) / 10 ^ d := by
    rw [add_div, ← h1, ← h2]
    linarith
  have hhalf : -(1 / 2 : ℚ) ≤ (k1 : ℚ) + (k2 : ℚ) := by
    rw [le_div_iff₀ hE] at hsum
    have hcalc : -(1 / (2 * 10 ^ d)) * 10 ^ d = -(1 / 2 : ℚ) := by
      field_simp
      ring
    rw [hcalc] at hsum
    exact hsum
  have hk : 0 ≤ k1 + k2 := by
    by_contra hneg
    push_neg at hneg
    have hle : k1 + k2 ≤ -1 := by omega
    have hcast : ((k1 : ℚ) + (k2 : ℚ)) ≤ -1 := by exact_mod_cast hle
    linarith
  rw [h2, h1, ← add_div]
  apply div_nonneg _ hE.le
  exact_mod_cast hk

/-! ## Facts about the day-count table and interest formula -/

theorem daysInYear_pos (dt : JSDate) (b : DayCountBasis) :
    0 < ((getMonthDaysAndYearDays dt b).daysInYear : ℚ) := by
  unfold getMonthDaysAndYearDays
  split_ifs <;> norm_num

theorem interest_formula_nonneg (rem rate : ℚ) (dy dd : Int) (d : ℕ)
    (hrem : 0 ≤ rem) (hrate : 0 ≤ rate) (hdy : 0 < (dy : ℚ)) (hdd : 0 ≤ dd) :
    0 ≤ roundDecimals (rem * (rate / 100 / (dy : ℚ)) * (dd : ℚ)) d := by
  apply roundDecimals_nonneg
  have hdd2 : (0 : ℚ) ≤ (dd : ℚ) := by exact_mod_cast hdd
  exact mul_nonneg
    (mul_nonneg hrem (div_nonneg (div_nonneg hrate (by norm_num)) hdy.le)) hdd2

/-! ## Characterizations of `applyEarlyRepayment` -/

/-- The schedule entry emitted by `applyEarlyRepayment`, by branch. -/
theorem applyEarlyRepayment_entry (sp : LoanCalcSharedParams) (er : EarlyRepaymentRecord) :
    (applyEarlyRepayment sp er).loanSchedule =
      (if er.earlyRepaymentAmount ≤ earlyRepaymentAccruedInterest sp er then
        { paymentDate := er.earlyRepaymentDate
          paymentAmount := er.earlyRepaymentAmount
          interestAmount := er.earlyRepaymentAmount
          principalAmount := 0
          remainingPrincipal := sp.remainingPrincipal
          isEarlyRepayment := true }
      else if roundDecimals
          (sp.remainingPrincipal -
            roundDecimals (er.earlyRepaymentAmount - earlyRepaymentAccruedInterest sp er)
              sp.roundingDecimals) sp.roundingDecimals < 0 then
        { paymentDate := er.earlyRepaymentDate
          paymentAmount := er.earlyRepaymentAmount +
            roundDecimals
              (sp.remainingPrincipal -
                roundDecimals (er.earlyRepaymentAmount - earlyRepaymentAccruedInterest sp er)
                  sp.roundingDecimals) sp.roundingDecimals
          interestAmount := earlyRepaymentAccruedInterest sp er
          principalAmount :=
            roundDecimals (er.earlyRepaymentAmount - earlyRepaymentAccruedInterest sp er)
              sp.roundingDecimals +
            roundDecimals
              (sp.remainingPrincipal -
                roundDecimals (er.earlyRepaymentAmount - earlyRepaymentAccruedInterest sp er)
                  sp.roundingDecimals) sp.roundingDecimals
          remainingPrincipal := 0
          isEarlyRepayment := true }
      else
        { paymentDate := er.earlyRepaymentDate
          paymentAmount := er.earlyRepaymentAmount
          interestAmount := earlyRepaymentAccruedInterest sp er
          principalAmount :=
            roundDecimals (er.earlyRepaymentAmount - earlyRepaymentAccruedInterest sp er)
              sp.roundingDecimals
          remainingPrincipal :=
            roundDecimals
              (sp.remainingPrincipal -
                roundDecimals (er.earlyRepaymentAmount - earlyRepaymentAccruedInterest sp er)
                  sp.roundingDecimals) sp.roundingDecimals
          isEarlyRepayment := true }) := by
  simp only [applyEarlyRepayment]
  split_ifs <;> rfl

/-- The remaining principal after `applyEarlyRepayment`, by branch. -/
theorem applyEarlyRepayment_rem (sp : LoanCalcSharedParams) (er : EarlyRepaymentRecord) :
    (applyEarlyRepayment sp er).updatedSharedParams.remainingPrincipal =
      (if er.earlyRepaymentAmount ≤ earlyRepaymentAccruedInterest sp er then
        sp.remainingPrincipal
      else if roundDecimals
          (sp.remainingPrincipal -
            roundDecimals (er.earlyRepaymentAmount - earlyRepaymentAccruedInterest sp er)
              sp.roundingDecimals) sp.roundingDecimals < 0 then 0
      else
        roundDecimals
          (sp.remainingPrincipal -
            roundDecimals (er.earlyRepaymentAmount - earlyRepaymentAccruedInterest sp er)
              sp.roundingDecimals) sp.roundingDecimals) := by
  simp only [applyEarlyRepayment]
  split_ifs <;> rfl

/-! ## Sorting and registry-scan lemmas -/

theorem mem_insertByDate (x a : EarlyRepaymentRecord) (l : List EarlyRepaymentRecord) :
    a ∈ insertByDate x l ↔ a = x ∨ a ∈ l := by
  induction l with
  | nil => simp [insertByDate]
  | cons b t ih =>
    unfold insertByDate
    split_ifs with h
    · simp [List.mem_cons]
    · simp [List.mem_cons, ih]
      tauto

theorem mem_sortByDate_aux (l : List EarlyRepaymentRecord)
    (acc : List EarlyRepaymentRecord) (a : EarlyRepaymentRecord) :
    a ∈ l.foldl (fun acc x => insertByDate x acc) acc ↔ a ∈ acc ∨ a ∈ l := by
  induction l generalizing acc with
  | nil => simp
  | cons b t ih =>
    simp only [List.foldl_cons, ih, mem_insertByDate, List.mem_cons]
    tauto

theorem mem_sortByDate (l : List EarlyRepaymentRecord) (a : EarlyRepaymentRecord) :
    a ∈ sortByDate l ↔ a ∈ l := by
  unfold sortByDate
  rw [mem_sortByDate_aux]
  simp

theorem sorted_insertByDate (x : EarlyRepaymentRecord) (l : List EarlyRepaymentRecord)
    (h : List.Pairwise (fun a b =>
      getTime a.earlyRepaymentDate ≤ getTime b.earlyRepaymentDate) l) :
    List.Pairwise (fun a b => getTime a.earlyRepaymentDate ≤ getTime b.earlyRepaymentDate)
      (insertByDate x l) := by
  induction l with
  | nil => simp [insertByDate]
  | cons b t ih =>
    obtain ⟨hb, ht⟩ := List.pairwise_cons.mp h
    unfold insertByDate
    split_ifs with hlt
    · refine List.pairwise_cons.mpr ⟨?_, h⟩
      intro y hy
      rcases List.mem_cons.mp hy with rfl | hyt
      · exact le_of_lt hlt
      · exact le_trans (le_of_lt hlt) (hb y hyt)
    · refine List.pairwise_cons.mpr ⟨?_, ih ht⟩
      intro y hy
      rcases (mem_insertByDate x y t).mp hy with rfl | hyt
      · exact not_lt.mp hlt
      · exact hb y hyt

theorem sorted_sortByDate (l : List EarlyRepaymentRecord) :
    List.Pairwise (fun a b => getTime a.earlyRepaymentDate ≤ getTime b.earlyRepaymentDate)
      (sortByDate l) := by
  unfold sortByDate
  suffices hs : ∀ acc, List.Pairwise (fun a b =>
      getTime a.earlyRepaymentDate ≤ getTime b.earlyRepaymentDate) acc →
      List.Pairwise (fun a b => getTime a.earlyRepaymentDate ≤ getTime b.earlyRepaymentDate)
        (l.foldl (fun acc x => insertByDate x acc) acc) by
    exact hs [] (by simp)
  induction l with
  | nil => intro acc hacc; simpa using hacc
  | cons b t ih =>
    intro acc hacc
    simpa using ih (insertByDate b acc) (sorted_insertByDate b acc hacc)

/-- Every rule selected for a window is due strictly after `currentDate`
and at or before `nextDate`, and the batch is sorted by due date. -/
theorem getNextEarlyRepayment_facts (records : Registry) (cur next : JSDate) :
    (∀ er ∈ getNextEarlyRepayment records cur next,
      getTime cur < getTime er.earlyRepaymentDate ∧
      getTime er.earlyRepaymentDate ≤ getTime next) ∧
    List.Pairwise (fun a b => getTime a.earlyRepaymentDate ≤ getTime b.earlyRepaymentDate)
      (getNextEarlyRepayment records cur next) := by
  simp only [getNextEarlyRepayment]
  split_ifs with h
  · simp
  · refine ⟨?_, sorted_sortByDate _⟩
    intro er her
    rw [mem_sortByDate] at her
    have hf := (List.mem_filter.mp her).2
    unfold erWindowFilter at hf
    simp only [Bool.and_eq_true, decide_eq_true_eq] at hf
    exact ⟨hf.1.2, hf.2⟩

/-! ## Dates of the entries emitted by the early-repayment batch -/

theorem applyEarlyRepayment_date (sp : LoanCalcSharedParams) (er : EarlyRepaymentRecord) :
    (applyEarlyRepayment sp er).loanSchedule.paymentDate = er.earlyRepaymentDate := by
  rw [applyEarlyRepayment_entry]
  split_ifs <;> rfl

theorem applyEarlyRepayment_nextDate (sp : LoanCalcSharedParams) (er : EarlyRepaymentRecord) :
    (applyEarlyRepayment sp er).updatedSharedParams.nextDate = sp.nextDate := by
  simp only [applyEarlyRepayment]
  split_ifs <;> rfl

theorem applyEarlyRepaymentsGo_facts (sp : LoanCalcSharedParams) :
    ∀ (rules : List EarlyRepaymentRecord) (records : Registry)
      (acc : LoanCalcSharedParams) (entries0 : List LoanScheduleEntry),
      acc.nextDate = sp.nextDate →
      (∃ k, (applyEarlyRepaymentsGo sp rules records acc entries0).loanSchedule.map
          (fun e => e.paymentDate) =
        entries0.map (fun e => e.paymentDate) ++
          (rules.take k).map (fun er => er.earlyRepaymentDate)) ∧
      (applyEarlyRepaymentsGo sp rules records acc entries0).updatedSharedParams.nextDate =
        sp.nextDate := by
  intro rules
  induction rules with
  | nil =>
    intro records acc entries0 hacc
    exact ⟨⟨0, by simp [applyEarlyRepaymentsGo]⟩, hacc⟩
  | cons er rest ih =>
    intro records acc entries0 hacc
    simp only [applyEarlyRepaymentsGo]
    by_cases hbreak :
        (applyEarlyRepayment sp er).updatedSharedParams.remainingPrincipal ≤ 0
    · rw [if_pos hbreak]
      refine ⟨⟨1, ?_⟩, ?_⟩
      · simp [applyEarlyRepayment_date]
      · simpa using applyEarlyRepayment_nextDate sp er
    · rw [if_neg hbreak]
      have key : ∀ R : Registry,
          (∃ k, (applyEarlyRepaymentsGo sp rest R
              (applyEarlyRepayment sp er).updatedSharedParams
              (entries0 ++ [(applyEarlyRepayment sp er).loanSchedule])).loanSchedule.map
              (fun e => e.paymentDate) =
            entries0.map (fun e => e.paymentDate) ++
              ((er :: rest).take k).map (fun er => er.earlyRepaymentDate)) ∧
          (applyEarlyRepaymentsGo sp rest R
              (applyEarlyRepayment sp er).updatedSharedParams
              (entries0 ++ [(applyEarlyRepayment sp er).loanSchedule])).updatedSharedParams.nextDate
            = sp.nextDate := by
        intro R
        obtain ⟨⟨k, hk⟩, hnext⟩ := ih R (applyEarlyRepayment sp er).updatedSharedParams
          (entries0 ++ [(applyEarlyRepayment sp er).loanSchedule])
          (applyEarlyRepayment_nextDate sp er)
        refine ⟨⟨k + 1, ?_⟩, hnext⟩
        rw [hk, List.take_succ_cons]
        simp [applyEarlyRepayment_date]
      exact key _

/-! ## Claim C1 — remaining principal and termination at zero -/

/-- C1 counterexample.  On `negDriftParams` (a valid input) the tracked
remaining principal is not always ≥ 0: the differentiated regular branch
subtracts the constant per-period principal without any clamp, and the
schedule contains entries with balances −1 and −2. -/
theorem claim_C1_counterexample :
    ¬ ∀ e ∈ scheduleOf negDriftParams, 0 ≤ e.remainingPrincipal :=
  of_decide_eq_true (by with_unfolding_all rfl)

/-- C1 amended.  What the code does guarantee: (a) `applyEarlyRepayment`
never drives the remaining principal below 0 — the overshoot clamp works,
so early repayments preserve nonnegativity; (b) once the remaining
principal reaches 0, an annuity schedule (with a nonnegative standing
payment, no pending rules, no interest-only period) emits exactly one
further entry — the closing entry — rather than zero; regular
differentiated periods, by contrast, have no clamp and can push the
balance negative (see the counterexample). -/
theorem claim_C1_amended :
    (∀ (sp : LoanCalcSharedParams) (er : EarlyRepaymentRecord),
      0 ≤ sp.remainingPrincipal →
      0 ≤ (applyEarlyRepayment sp er).updatedSharedParams.remainingPrincipal) ∧
    (∀ (ctx : LoanCtx) (r : ℕ) (st : LoopState),
      st.sp.loanType = .annuity → st.sp.remainingPrincipal = 0 →
      0 ≤ st.sp.annuityMonthlyPayment → st.records.filterMap id = [] →
      ctx.interestOnlyFirstPeriod = false →
      (loanLoop ctx (r + 1) st).length = 1) := by
  constructor
  · intro sp er hrem
    rw [applyEarlyRepayment_rem]
    split_ifs with h1 h2
    · exact hrem
    · exact le_refl (0 : ℚ)
    · exact le_of_not_lt h2
  · intro ctx r st hLT hrem hpay hreg hiop
    have hget : getNextEarlyRepayment st.records st.sp.currentDate st.sp.nextDate = [] := by
      unfold getNextEarlyRepayment
      rw [hreg]
      rfl
    rw [loanLoop]
    simp only [loanStep]
    rw [show ({ st.sp with remainingInterestAmount := 0 } :
      LoanCalcSharedParams).currentDate = st.sp.currentDate from rfl,
      show ({ st.sp with remainingInterestAmount := 0 } :
        LoanCalcSharedParams).nextDate = st.sp.nextDate from rfl, hget]
    simp only [List.isEmpty_nil, if_true, ite_true]
    rw [if_neg (by simp [hiop]),
      if_pos (Or.inr ⟨hLT, by
        rw [show ({ st.sp with remainingInterestAmount := 0 } :
          LoanCalcSharedParams).remainingPrincipal = st.sp.remainingPrincipal from rfl, hrem]
        exact hpay⟩)]
    rfl

/-! ## Claim C5 — nonnegativity of entry fields -/

/-- C5 counterexample.  On `negDriftParams` (a valid input) the schedule
contains an entry with negative remaining principal (−1) and a final
entry with negative principal amount (−2). -/
theorem claim_C5_counterexample :
    ¬ ∀ e ∈ scheduleOf negDriftParams,
        0 ≤ e.principalAmount ∧ 0 ≤ e.interestAmount ∧ 0 ≤ e.remainingPrincipal :=
  of_decide_eq_true (by with_unfolding_all rfl)

/-- C5 amended.  What does hold: the regular-period interest line is
nonnegative whenever the running remaining principal is (for nonnegative
rate, carry, and anchor gap), and every early-repayment entry has
nonnegative interest, principal and remaining balance; but regular
differentiated entries can carry negative principal and remaining
balance (see the counterexample). -/
theorem claim_C5_amended :
    (∀ sp : LoanCalcSharedParams,
      0 ≤ sp.remainingPrincipal → 0 ≤ sp.annualInterestRatePercent →
      0 ≤ sp.remainingInterestAmount →
      toDays sp.currentDate ≤ toDays sp.nextDate →
      0 ≤ regularInterest sp) ∧
    (∀ (sp : LoanCalcSharedParams) (er : EarlyRepaymentRecord),
      0 ≤ sp.remainingPrincipal → 0 ≤ sp.annualInterestRatePercent →
      0 ≤ er.earlyRepaymentAmount →
      toDays sp.currentDate ≤ toDays er.earlyRepaymentDate →
      0 ≤ (applyEarlyRepayment sp er).loanSchedule.interestAmount ∧
      0 ≤ (applyEarlyRepayment sp er).loanSchedule.principalAmount ∧
      0 ≤ (applyEarlyRepayment sp er).loanSchedule.remainingPrincipal) := by
  constructor
  · intro sp hrem hrate hcarry hdates
    unfold regularInterest
    split_ifs with h
    · exact hcarry
    · exact interest_formula_nonneg _ _ _ _ _ hrem hrate
        (daysInYear_pos sp.nextDate sp.dayCountBasis)
        (by unfold differenceInCalendarDays; omega)
  · intro sp er hrem hrate hamt hdates
    have hacc : 0 ≤ earlyRepaymentAccruedInterest sp er := by
      unfold earlyRepaymentAccruedInterest
      exact interest_formula_nonneg _ _ _ _ _ hrem hrate
        (daysInYear_pos er.earlyRepaymentDate sp.dayCountBasis)
        (by unfold differenceInCalendarDays; omega)
    rw [applyEarlyRepayment_entry]
    split_ifs with h1 h2
    · exact ⟨hamt, le_refl (0 : ℚ), hrem⟩
    · refine ⟨hacc, ?_, le_refl (0 : ℚ)⟩
      exact round_pair_nonneg sp.remainingPrincipal
        (er.earlyRepaymentAmount - earlyRepaymentAccruedInterest sp er)
        sp.roundingDecimals hrem
    · refine ⟨hacc, ?_, le_of_not_lt h2⟩
      apply roundDecimals_nonneg
      have := not_le.mp h1
      linarith

/-- C5 witness: the amended statement instantiated at the concrete state
`spSample` and rule `erSample`. -/
theorem claim_C5_witness :
    0 ≤ regularInterest spSample ∧
    0 ≤ (applyEarlyRepayment spSample erSample).loanSchedule.interestAmount := by
  have h := claim_C5_amended
  constructor
  · exact h.1 spSample (by norm_num [spSample]) (by norm_num [spSample])
      (by norm_num [spSample]) (by decide)
  · exact (h.2 spSample erSample (by norm_num [spSample]) (by norm_num [spSample])
      (by norm_num [erSample]) (by decide)).1

/-- C1 witness: the amended statement instantiated at `spSample` /
`erSample` (clamp part) and at the zero-balance annuity state
`stSampleAnnuity` (single-closing-entry part). -/
theorem claim_C1_witness :
    0 ≤ (applyEarlyRepayment spSample erSample).updatedSharedParams.remainingPrincipal ∧
    (loanLoop ctxSample (1 + 1) stSampleAnnuity).length = 1 := by
  have h := claim_C1_amended
  constructor
  · exact h.1 spSample erSample (by norm_num [spSample])
  · exact h.2 ctxSample 1 stSampleAnnuity rfl rfl (by norm_num [stSampleAnnuity, spSample]) rfl rfl

/-! ## Claim C4 — ordering, monotonicity, final balance -/

/-- C4 counterexample.  On `negDriftParams` the remaining-principal
column reads 4, 3, 2, 1, 0, −1, −2, 0: the step from −2 to the final 0
increases, so the column is not monotonically non-increasing. -/
theorem claim_C4_counterexample :
    ¬ ∀ p ∈ (scheduleOf negDriftParams).zip (scheduleOf negDriftParams).tail,
        p.2.remainingPrincipal ≤ p.1.remainingPrincipal :=
  of_decide_eq_true (by with_unfolding_all rfl)

/-! ## Machinery for the amended C4: dates advance and the loop closes at zero -/

theorem loanStep_dates (ctx : LoanCtx) (rtm : ℕ) (st : LoopState) :
    ∃ dates,
      (loanStep ctx rtm st).entries.map (fun e => e.paymentDate) =
        dates ++ [st.sp.nextDate] ∧
      (∀ dte ∈ dates, getTime st.sp.currentDate < getTime dte ∧
        getTime dte ≤ getTime st.sp.nextDate) ∧
      List.Pairwise (fun a b : JSDate => getTime a ≤ getTime b) dates := by
  simp only [loanStep]
  by_cases hne :
      getNextEarlyRepayment st.records st.sp.currentDate st.sp.nextDate = []
  case pos =>
    rw [hne, if_pos (show ([] : List EarlyRepaymentRecord).isEmpty = true from rfl)]
    dsimp only
    split_ifs with h1 h2
    · exact ⟨[], by simp [StepOut.entries], fun d hd => absurd hd (List.not_mem_nil d), List.Pairwise.nil⟩
    · exact ⟨[], by simp [StepOut.entries], fun d hd => absurd hd (List.not_mem_nil d), List.Pairwise.nil⟩
    · split
      · exact ⟨[], by simp [StepOut.entries], fun d hd => absurd hd (List.not_mem_nil d), List.Pairwise.nil⟩
      · exact ⟨[], by simp [StepOut.entries], fun d hd => absurd hd (List.not_mem_nil d), List.Pairwise.nil⟩
  case neg =>
    rw [if_neg (show ¬((getNextEarlyRepayment st.records st.sp.currentDate
        st.sp.nextDate).isEmpty = true) from fun hE => hne (List.isEmpty_iff.mp hE))]
    dsimp only
    simp only [applyEarlyRepayments]
    obtain ⟨⟨k, hk⟩, hnext⟩ := applyEarlyRepaymentsGo_facts
      { st.sp with remainingInterestAmount := 0 }
      (getNextEarlyRepayment st.records st.sp.currentDate st.sp.nextDate) st.records
      { st.sp with remainingInterestAmount := 0 } [] rfl
    simp only [List.map_nil, List.nil_append] at hk
    obtain ⟨hwin, hsorted⟩ := getNextEarlyRepayment_facts st.records st.sp.currentDate st.sp.nextDate
    have hbnd : ∀ dte ∈ ((getNextEarlyRepayment st.records st.sp.currentDate
        st.sp.nextDate).take k).map (fun er => er.earlyRepaymentDate),
        getTime st.sp.currentDate < getTime dte ∧ getTime dte ≤ getTime st.sp.nextDate := by
      intro dte hdte
      obtain ⟨er, her, rfl⟩ := List.mem_map.mp hdte
      exact hwin er (List.mem_of_mem_take her)
    have hsort : List.Pairwise (fun a b : JSDate => getTime a ≤ getTime b)
        (((getNextEarlyRepayment st.records st.sp.currentDate
          st.sp.nextDate).take k).map (fun er => er.earlyRepaymentDate)) :=
      List.pairwise_map.mpr (List.Pairwise.sublist (List.take_sublist k _) hsorted)
    split_ifs with h1 h2
    · exact ⟨_, by simp [StepOut.entries, hk, hnext], hbnd, hsort⟩
    · exact ⟨_, by simp [StepOut.entries, hk, hnext], hbnd, hsort⟩
    · split
      · exact ⟨_, by simp [StepOut.entries, hk, hnext], hbnd, hsort⟩
      · exact ⟨_, by simp [StepOut.entries, hk, hnext], hbnd, hsort⟩


theorem getTime_lt_getTime (a b : JSDate) (ha : a.ms = 0) (hb : b.ms = 0)
    (h : toDays a < toDays b) : getTime a < getTime b := by
  unfold getTime
  rw [ha, hb]
  omega

theorem loanStep_cont (ctx : LoanCtx) (rtm : ℕ) (st st2 : LoopState)
    (es : List LoanScheduleEntry) (h : loanStep ctx rtm st = .cont st2 es) :
    st2.sp.currentDate = st.sp.nextDate ∧
    st2.sp.nextDate =
      (moveToNextDate st.sp.nextDate ctx.paymentDayNumber ctx.moveHolidayToNextDay).1 := by
  revert h
  simp only [loanStep]
  by_cases hne :
      getNextEarlyRepayment st.records st.sp.currentDate st.sp.nextDate = []
  case pos =>
    rw [hne, if_pos (show ([] : List EarlyRepaymentRecord).isEmpty = true from rfl)]
    dsimp only
    split_ifs with h1 h2
    · intro h
      injection h with hst hes
      rw [← hst]
      exact ⟨rfl, rfl⟩
    · intro h
      exact h.elim
    · split
      · intro h
        injection h with hst hes
        rw [← hst]
        exact ⟨rfl, rfl⟩
      · intro h
        injection h with hst hes
        rw [← hst]
        exact ⟨rfl, rfl⟩
  case neg =>
    rw [if_neg (show ¬((getNextEarlyRepayment st.records st.sp.currentDate
        st.sp.nextDate).isEmpty = true) from fun hE => hne (List.isEmpty_iff.mp hE))]
    dsimp only
    simp only [applyEarlyRepayments]
    obtain ⟨⟨k, hk⟩, hnext⟩ := applyEarlyRepaymentsGo_facts
      { st.sp with remainingInterestAmount := 0 }
      (getNextEarlyRepayment st.records st.sp.currentDate st.sp.nextDate) st.records
      { st.sp with remainingInterestAmount := 0 } [] rfl
    split_ifs with h1 h2
    · intro h
      injection h with hst hes
      rw [← hst]
      refine ⟨hnext, ?_⟩
      dsimp only [advanceDates]
      rw [hnext]
    · intro h
      exact h.elim
    · split
      · intro h
        injection h with hst hes
        rw [← hst]
        refine ⟨hnext, ?_⟩
        dsimp only [advanceDates]
        rw [hnext]
      · intro h
        injection h with hst hes
        rw [← hst]
        refine ⟨hnext, ?_⟩
        dsimp only [advanceDates]
        rw [hnext]

theorem loanStep_halt (ctx : LoanCtx) (rtm : ℕ) (st : LoopState)
    (es : List LoanScheduleEntry) (h : loanStep ctx rtm st = .halt es) :
    ∃ es0 e, es = es0 ++ [e] ∧ e.remainingPrincipal = 0 := by
  revert h
  simp only [loanStep]
  by_cases hne :
      getNextEarlyRepayment st.records st.sp.currentDate st.sp.nextDate = []
  case pos =>
    rw [hne, if_pos (show ([] : List EarlyRepaymentRecord).isEmpty = true from rfl)]
    dsimp only
    split_ifs with h1 h2
    · intro h
      exact h.elim
    · intro h
      injection h with hes
      exact ⟨_, _, hes.symm, rfl⟩
    · split
      · intro h
        exact StepOut.noConfusion h
      · intro h
        exact StepOut.noConfusion h
  case neg =>
    rw [if_neg (show ¬((getNextEarlyRepayment st.records st.sp.currentDate
        st.sp.nextDate).isEmpty = true) from fun hE => hne (List.isEmpty_iff.mp hE))]
    dsimp only
    split_ifs with h1 h2
    · intro h
      exact h.elim
    · intro h
      injection h with hes
      exact ⟨_, _, hes.symm, rfl⟩
    · split
      · intro h
        exact StepOut.noConfusion h
      · intro h
        exact StepOut.noConfusion h

theorem loanStep_one (ctx : LoanCtx) (st : LoopState)
    (hio : ctx.interestOnlyFirstPeriod = true → 2 ≤ ctx.termMonths) :
    ∃ es, loanStep ctx 1 st = .halt es := by
  simp only [loanStep]
  by_cases hne :
      getNextEarlyRepayment st.records st.sp.currentDate st.sp.nextDate = []
  case pos =>
    rw [hne, if_pos (show ([] : List EarlyRepaymentRecord).isEmpty = true from rfl)]
    dsimp only
    rw [if_neg (show ¬(1 = ctx.termMonths ∧ ctx.interestOnlyFirstPeriod = true) from
      fun hc => by have := hio hc.2; omega)]
    simp only [true_or]
    rw [if_pos trivial]
    exact ⟨_, rfl⟩
  case neg =>
    rw [if_neg (show ¬((getNextEarlyRepayment st.records st.sp.currentDate
        st.sp.nextDate).isEmpty = true) from fun hE => hne (List.isEmpty_iff.mp hE))]
    dsimp only
    rw [if_neg (show ¬(1 = ctx.termMonths ∧ ctx.interestOnlyFirstPeriod = true) from
      fun hc => by have := hio hc.2; omega)]
    simp only [true_or]
    rw [if_pos trivial]
    exact ⟨_, rfl⟩


theorem loanLoop_last (ctx : LoanCtx)
    (hio : ctx.interestOnlyFirstPeriod = true → 2 ≤ ctx.termMonths) :
    ∀ (r : ℕ) (st : LoopState), 1 ≤ r →
      ∃ e, (loanLoop ctx r st).getLast? = some e ∧ e.remainingPrincipal = 0 := by
  intro r
  induction r with
  | zero => intro st h; exact absurd h (by omega)
  | succ n ih =>
    intro st _
    cases hstep : loanStep ctx (n + 1) st with
    | halt es =>
      obtain ⟨es0, e, rfl, hrp⟩ := loanStep_halt ctx (n + 1) st es hstep
      refine ⟨e, ?_, hrp⟩
      rw [show loanLoop ctx (n + 1) st = es0 ++ [e] from by simp only [loanLoop, hstep]]
      rw [List.getLast?_append_of_ne_nil es0 (by simp)]
      rfl
    | cont st2 es =>
      have hn : 1 ≤ n := by
        by_contra hc
        have hn0 : n = 0 := by omega
        subst hn0
        obtain ⟨es2, hes2⟩ := loanStep_one ctx st hio
        rw [hstep] at hes2
        exact StepOut.noConfusion hes2
      obtain ⟨e, hlast, hrp⟩ := ih st2 hn
      refine ⟨e, ?_, hrp⟩
      rw [show loanLoop ctx (n + 1) st = es ++ loanLoop ctx n st2 from by
        simp only [loanLoop, hstep]]
      rw [List.getLast?_append_of_ne_nil es (fun hnil => by
        rw [hnil] at hlast
        exact Option.noConfusion hlast)]
      exact hlast

theorem loanLoop_sorted (ctx : LoanCtx)
    (hpd1 : 1 ≤ ctx.paymentDayNumber) (hpd2 : ctx.paymentDayNumber ≤ 31) :
    ∀ (r : ℕ) (st : LoopState), ValidDate st.sp.nextDate → st.sp.nextDate.ms = 0 →
      getTime st.sp.currentDate < getTime st.sp.nextDate →
      List.Pairwise (fun a b : JSDate => getTime a ≤ getTime b)
        ((loanLoop ctx r st).map (fun e => e.paymentDate)) ∧
      ∀ d ∈ (loanLoop ctx r st).map (fun e => e.paymentDate),
        getTime st.sp.currentDate < getTime d := by
  intro r
  induction r with
  | zero =>
    intro st _ _ _
    exact ⟨by simp [loanLoop], by simp [loanLoop]⟩
  | succ n ih =>
    intro st hvd hms hlt
    cases hstep : loanStep ctx (n + 1) st with
    | halt es =>
      have heq : loanLoop ctx (n + 1) st = es := by simp only [loanLoop, hstep]
      obtain ⟨dates, hmap, hbnd, hsort⟩ := loanStep_dates ctx (n + 1) st
      rw [hstep] at hmap
      simp only [StepOut.entries] at hmap
      rw [heq, hmap]
      constructor
      · rw [List.pairwise_append]
        refine ⟨hsort, by simp, ?_⟩
        intro a ha b hb
        rw [List.mem_singleton] at hb
        subst hb
        exact (hbnd a ha).2
      · intro d hd
        rcases List.mem_append.mp hd with hd | hd
        · exact (hbnd d hd).1
        · rw [List.mem_singleton] at hd
          subst hd
          exact hlt
    | cont st2 es =>
      have heq : loanLoop ctx (n + 1) st = es ++ loanLoop ctx n st2 := by
        simp only [loanLoop, hstep]
      obtain ⟨hcur2, hnext2⟩ := loanStep_cont ctx (n + 1) st st2 es hstep
      have hmono := moveToNextDate_mono st.sp.nextDate ctx.paymentDayNumber
        ctx.moveHolidayToNextDay hvd hpd1 hpd2
      have hvd2 : ValidDate st2.sp.nextDate := by rw [hnext2]; exact hmono.2.1
      have hms2 : st2.sp.nextDate.ms = 0 := by rw [hnext2]; exact hmono.2.2
      have hlt2 : getTime st2.sp.currentDate < getTime st2.sp.nextDate := by
        rw [hcur2, hnext2]
        exact getTime_lt_getTime _ _ hms hmono.2.2 hmono.1
      obtain ⟨ihp, ihm⟩ := ih st2 hvd2 hms2 hlt2
      obtain ⟨dates, hmap, hbnd, hsort⟩ := loanStep_dates ctx (n + 1) st
      rw [hstep] at hmap
      simp only [StepOut.entries] at hmap
      rw [heq, List.map_append, hmap]
      constructor
      · rw [List.pairwise_append]
        refine ⟨?_, ihp, ?_⟩
        · rw [List.pairwise_append]
          refine ⟨hsort, by simp, ?_⟩
          intro a ha b hb
          rw [List.mem_singleton] at hb
          subst hb
          exact (hbnd a ha).2
        · intro a ha b hb
          have hb2 := ihm b hb
          rw [hcur2] at hb2
          rcases List.mem_append.mp ha with ha | ha
          · exact le_of_lt (lt_of_le_of_lt (hbnd a ha).2 hb2)
          · rw [List.mem_singleton] at ha
            subst ha
            exact le_of_lt hb2
      · intro d hd
        rcases List.mem_append.mp hd with hd | hd
        · rcases List.mem_append.mp hd with hd | hd
          · exact (hbnd d hd).1
          · rw [List.mem_singleton] at hd
            subst hd
            exact hlt
        · have hd2 := ihm d hd
          rw [hcur2] at hd2
          exact lt_trans hlt hd2


set_option maxHeartbeats 1000000 in
/-- C4, amended.  For any validated input (positive principal and term,
non-negative rate, valid issue date, payment day in 1..31, and a term of
at least two months whenever `interestOnlyFirstPeriod` is set) the
schedule's payment dates are non-decreasing and the final entry closes at
a remaining principal of exactly 0.  The monotone non-increase of the
remaining-principal column claimed alongside is false (see the
counterexample): rounding drift can push the tracked balance negative and
the closing entry then jumps back up to 0. -/
theorem claim_C4_amended (p : LoanScheduleParams)
    (h1 : 0 < p.principal) (h2 : 0 < p.termMonths)
    (h3 : 0 ≤ p.annualInterestRatePercent)
    (h4 : ValidDate p.issueDate)
    (h5 : ∀ n ∈ p.paymentDayNumber, 1 ≤ n ∧ n ≤ 31)
    (h6 : p.interestOnlyFirstPeriod = true → 2 ≤ p.termMonths) :
    List.Pairwise (fun a b : JSDate => getTime a ≤ getTime b)
      ((scheduleOf p).map (fun e => e.paymentDate)) ∧
    ∃ e, (scheduleOf p).getLast? = some e ∧ e.remainingPrincipal = 0 := by
  have hpd : 1 ≤ p.paymentDayNumber.getD (setHours0 p.issueDate).day ∧
      p.paymentDayNumber.getD (setHours0 p.issueDate).day ≤ 31 := by
    cases hopt : p.paymentDayNumber with
    | none =>
      have hv : ValidDate (setHours0 p.issueDate) := setHours0_valid _ h4
      have hb := daysInMonth_bounds (setHours0 p.issueDate).year (setHours0 p.issueDate).month
      exact ⟨hv.2.2.1, le_trans hv.2.2.2 hb.2⟩
    | some n =>
      simpa using h5 n (by simp [hopt])
  have hmono := moveToNextDate_mono (setHours0 p.issueDate)
    (p.paymentDayNumber.getD (setHours0 p.issueDate).day) p.moveHolidayToNextDay
    (setHours0_valid _ h4) hpd.1 hpd.2
  simp only [scheduleOf, generateLoanSchedule]
  rw [if_neg (not_le.mpr h1), if_neg (not_le.mpr h2), if_neg (not_lt.mpr h3)]
  dsimp only
  constructor
  · refine (loanLoop_sorted ?_ ?_ ?_ ?_ ?_ ?_ ?_ ?_).1
    · exact hpd.1
    · exact hpd.2
    · exact hmono.2.1
    · exact hmono.2.2
    · exact getTime_lt_getTime _ _ rfl hmono.2.2 hmono.1
  · refine loanLoop_last ?_ ?_ ?_ ?_ ?_
    · dsimp only
      intro hio
      have := h6 hio
      omega
    · dsimp only
      omega

theorem claim_C4_witness :
    List.Pairwise (fun a b : JSDate => getTime a ≤ getTime b)
      ((scheduleOf scenarioAParams).map (fun e => e.paymentDate)) ∧
    ∃ e, (scheduleOf scenarioAParams).getLast? = some e ∧ e.remainingPrincipal = 0 :=
  claim_C4_amended scenarioAParams
    (of_decide_eq_true (by with_unfolding_all rfl))
    (by decide)
    (of_decide_eq_true (by with_unfolding_all rfl))
    (by decide)
    (by simp [scenarioAParams])
    (by decide)

/-! ## Claim C7 — a small early repayment becomes interest plus a carry -/

theorem regularInterest_of_carry (sp : LoanCalcSharedParams)
    (h : sp.remainingInterestAmount ≠ 0) :
    regularInterest sp = sp.remainingInterestAmount := by
  unfold regularInterest
  rw [if_pos h]

/-- State update of `applyEarlyRepayment` in the amount-≤-interest branch
for a differentiated loan: principal untouched, the shortfall becomes the
carry, the per-period principal is recomputed, the anchor dates advance
to the rule's date. -/
theorem applyEarlyRepayment_le_amort_sp (sp : LoanCalcSharedParams)
    (er : EarlyRepaymentRecord)
    (h : er.earlyRepaymentAmount ≤ earlyRepaymentAccruedInterest sp er)
    (hLT : sp.loanType = .amortization) :
    (applyEarlyRepayment sp er).updatedSharedParams =
      { sp with
          remainingInterestAmount :=
            roundDecimals (earlyRepaymentAccruedInterest sp er - er.earlyRepaymentAmount)
              sp.roundingDecimals
          amortizationPrincipal :=
            roundDecimals (sp.remainingPrincipal / (sp.termMonthsToCalculate : ℚ))
              sp.roundingDecimals
          previousDate := sp.currentDate
          currentDate := er.earlyRepaymentDate } := by
  simp only [applyEarlyRepayment]
  rw [if_pos h]
  rw [if_neg (show
    ¬(sp.loanType = LoanType.annuity ∧ er.repaymentType = some RepaymentType.decreasePayment)
    from fun hc => by rw [hLT] at hc; exact absurd hc.1 (by decide))]
  rw [if_pos hLT]

/-- Registry bookkeeping of `applyEarlyRepayment` for a ONCE rule: the
delete flag is set, no updated rule is returned, and the record object is
not advanced. -/
theorem applyEarlyRepayment_once_flags (sp : LoanCalcSharedParams)
    (er : EarlyRepaymentRecord) (hper : er.periodicity = some .once) :
    (applyEarlyRepayment sp er).deleteEarlyRepayment = true ∧
    (applyEarlyRepayment sp er).updatedEarlyRepayment = none ∧
    (applyEarlyRepayment sp er).mutatedRecord = er := by
  simp [applyEarlyRepayment, hper]

/-- A single due ONCE rule is selected by the registry scan. -/
theorem getNextEarlyRepayment_singleton (er : EarlyRepaymentRecord)
    (cur next : JSDate)
    (hper : er.periodicity = some .once)
    (hend : er.earlyRepaymentDateEnd = none)
    (hw1 : getTime cur < getTime er.earlyRepaymentDate)
    (hw2 : getTime er.earlyRepaymentDate ≤ getTime next) :
    getNextEarlyRepayment [some er] cur next = [er] := by
  unfold getNextEarlyRepayment
  simp [sortByDate, insertByDate, erWindowFilter, hper, hend, hw1, hw2]

/-- C7 counterexample.  The claim covers every due rule whose amount is at
most the accrued interest, including amount exactly equal to it.  On
`stSampleEq` the rule's amount 333.33 equals the rounded accrued interest,
so the shortfall is exactly 0 — but the next regular period's interest
line is 666.67, a fresh day-count computation over the 20 days from the
repayment date to the period end, not the (zero) shortfall: the carry is
stored as 0, the `remainingInterestAmount ≠ 0` test fails, and the
shortfall is silently discarded. -/
theorem claim_C7_counterexample :
    erSampleEq.earlyRepaymentAmount ≤ earlyRepaymentAccruedInterest spSample erSampleEq ∧
    earlyRepaymentAccruedInterest spSample erSampleEq - erSampleEq.earlyRepaymentAmount = 0 ∧
    (loanStep ctxSample 3 stSampleEq).entries.map (fun e => e.isEarlyRepayment) =
      [true, false] ∧
    (loanStep ctxSample 3 stSampleEq).entries.map (fun e => e.interestAmount) =
      [33333/100, 66667/100] ∧
    (66667/100 : ℚ) =
      roundDecimals (spSample.remainingPrincipal
        * (spSample.annualInterestRatePercent / 100 / 360)
        * (differenceInCalendarDays spSample.nextDate erSampleEq.earlyRepaymentDate : ℚ)) 2 ∧
    (66667/100 : ℚ) ≠ 0 :=
  ⟨of_decide_eq_true (by with_unfolding_all rfl),
   by with_unfolding_all rfl,
   by with_unfolding_all rfl,
   by with_unfolding_all rfl,
   by with_unfolding_all rfl,
   by norm_num⟩

/-- C7, amended.  For a due ONCE rule whose amount is at most the interest
accrued from the previous anchor to its due date and whose rounded
shortfall is non-zero, one loop iteration emits exactly the
early-repayment entry — interest and payment equal to the rule's amount,
principal 0, balance unchanged — followed by the regular entry of the
period, whose interest line is the shortfall (used in place of a fresh
day-count computation); the rule is removed from the registry.  When the
rounded shortfall is 0 the carry test fails and a fresh day-count runs
instead (see the counterexample), so the non-zero-shortfall hypothesis is
necessary. -/
theorem claim_C7_amended (ctx : LoanCtx) (rtm : ℕ) (st : LoopState)
    (er : EarlyRepaymentRecord)
    (hreg : st.records = [some er]) (hid : er.id = 0)
    (hper : er.periodicity = some .once)
    (hend : er.earlyRepaymentDateEnd = none)
    (hw1 : getTime st.sp.currentDate < getTime er.earlyRepaymentDate)
    (hw2 : getTime er.earlyRepaymentDate ≤ getTime st.sp.nextDate)
    (hamt : er.earlyRepaymentAmount ≤ earlyRepaymentAccruedInterest st.sp er)
    (hsc : roundDecimals (earlyRepaymentAccruedInterest st.sp er - er.earlyRepaymentAmount)
        st.sp.roundingDecimals ≠ 0)
    (hLT : st.sp.loanType = .amortization)
    (hiop : ctx.interestOnlyFirstPeriod = false)
    (hr1 : rtm ≠ 1)
    (hpos : 0 < st.sp.remainingPrincipal) :
    ∃ (st2 : LoopState) (regEntry : LoanScheduleEntry),
      loanStep ctx rtm st = .cont st2
        [{ paymentDate := er.earlyRepaymentDate
           paymentAmount := er.earlyRepaymentAmount
           interestAmount := er.earlyRepaymentAmount
           principalAmount := 0
           remainingPrincipal := st.sp.remainingPrincipal
           isEarlyRepayment := true }, regEntry] ∧
      regEntry.interestAmount =
        roundDecimals (earlyRepaymentAccruedInterest st.sp er - er.earlyRepaymentAmount)
          st.sp.roundingDecimals ∧
      regEntry.isEarlyRepayment = false ∧
      st2.records = [none] := by
  have hamt0 : er.earlyRepaymentAmount ≤
      earlyRepaymentAccruedInterest { st.sp with remainingInterestAmount := 0 } er := hamt
  have hLT0 : ({ st.sp with remainingInterestAmount := 0 } :
      LoanCalcSharedParams).loanType = .amortization := hLT
  have hsp := applyEarlyRepayment_le_amort_sp _ er hamt0 hLT0
  have hflags := applyEarlyRepayment_once_flags
    { st.sp with remainingInterestAmount := 0 } er hper
  have hentry := applyEarlyRepayment_entry
    { st.sp with remainingInterestAmount := 0 } er
  rw [if_pos hamt0] at hentry
  have hget : getNextEarlyRepayment st.records st.sp.currentDate st.sp.nextDate = [er] := by
    rw [hreg]
    exact getNextEarlyRepayment_singleton er _ _ hper hend hw1 hw2
  have happ : applyEarlyRepayments { st.sp with remainingInterestAmount := 0 } [er] st.records =
      ⟨{ st.sp with
          remainingInterestAmount :=
            roundDecimals (earlyRepaymentAccruedInterest st.sp er - er.earlyRepaymentAmount)
              st.sp.roundingDecimals
          amortizationPrincipal :=
            roundDecimals (st.sp.remainingPrincipal / (st.sp.termMonthsToCalculate : ℚ))
              st.sp.roundingDecimals
          previousDate := st.sp.currentDate
          currentDate := er.earlyRepaymentDate },
        [{ paymentDate := er.earlyRepaymentDate
           paymentAmount := er.earlyRepaymentAmount
           interestAmount := er.earlyRepaymentAmount
           principalAmount := 0
           remainingPrincipal := st.sp.remainingPrincipal
           isEarlyRepayment := true }],
        [none]⟩ := by
    simp only [applyEarlyRepayments, applyEarlyRepaymentsGo, hreg, hid, registrySet]
    rw [hsp, hflags.1, hflags.2.1, hflags.2.2, hentry]
    simp only [List.set_cons_zero, if_true, ite_true]
    rw [if_neg (not_le.mpr hpos)]
    rfl
  simp only [loanStep]
  rw [hget]
  simp only [List.isEmpty_cons]
  rw [if_neg Bool.false_ne_true]
  rw [happ]
  dsimp only
  rw [if_neg (show ¬(rtm = ctx.termMonths ∧ ctx.interestOnlyFirstPeriod = true) from by
    simp [hiop])]
  rw [hLT]
  rw [if_neg (show ¬(rtm = 1 ∨ (LoanType.amortization = LoanType.annuity ∧
      st.sp.remainingPrincipal ≤ st.sp.annuityMonthlyPayment)) from by
    rintro (h | ⟨h, -⟩)
    · exact hr1 h
    · exact absurd h (by decide))]
  dsimp only
  exact ⟨_, _, rfl, regularInterest_of_carry _ hsc, rfl, rfl⟩

/-- C7 witness: the concrete state `stSampleCarry` (balance 100000 at
12 % ACTUAL_360, window 2024-01-15 → 2024-02-14) with the ONCE rule
`erSample` (amount 100, due 2024-01-25, accrued interest 333.33). -/
theorem claim_C7_witness :
    ∃ (st2 : LoopState) (regEntry : LoanScheduleEntry),
      loanStep ctxSample 3 stSampleCarry = .cont st2
        [{ paymentDate := ⟨2024, 1, 25, 0⟩
           paymentAmount := 100
           interestAmount := 100
           principalAmount := 0
           remainingPrincipal := 100000
           isEarlyRepayment := true }, regEntry] ∧
      regEntry.interestAmount =
        roundDecimals (earlyRepaymentAccruedInterest stSampleCarry.sp erSample - 100) 2 ∧
      regEntry.isEarlyRepayment = false ∧
      st2.records = [none] := by
  exact claim_C7_amended ctxSample 3 stSampleCarry erSample rfl rfl rfl rfl
    (by decide) (by decide)
    (of_decide_eq_true (by with_unfolding_all rfl))
    (of_decide_eq_true (by with_unfolding_all rfl))
    rfl rfl (by decide)
    (of_decide_eq_true (by with_unfolding_all rfl))

/-! ## Claim C3 amended — what ACTUAL_360 actually computes -/

/-- C3 amended.  Under ACTUAL_360 a regular period's interest (when no
carry is pending) is `round(rem × rate/100/360 × dayDifference)` — the
day count in the year is fixed at 360 but the elapsed days are the real
calendar difference of the two anchor dates — and it equals the claimed
`round(rem × rate / 1200)` exactly when that difference is 30 days. -/
theorem claim_C3_amended (sp : LoanCalcSharedParams)
    (hb : sp.dayCountBasis = .actual360)
    (hc : sp.remainingInterestAmount = 0) :
    regularInterest sp =
      roundDecimals
        (sp.remainingPrincipal * (sp.annualInterestRatePercent / 100 / 360)
          * ((differenceInCalendarDays sp.nextDate sp.currentDate : Int) : ℚ))
        sp.roundingDecimals ∧
    (differenceInCalendarDays sp.nextDate sp.currentDate = 30 →
      regularInterest sp =
        roundDecimals (sp.remainingPrincipal * sp.annualInterestRatePercent / 1200)
          sp.roundingDecimals) := by
  have h360 : getMonthDaysAndYearDays sp.nextDate sp.dayCountBasis = ⟨360, 30⟩ := by
    rw [hb]; rfl
  have hbase : regularInterest sp =
      roundDecimals
        (sp.remainingPrincipal * (sp.annualInterestRatePercent / 100 / 360)
          * ((differenceInCalendarDays sp.nextDate sp.currentDate : Int) : ℚ))
        sp.roundingDecimals := by
    unfold regularInterest
    rw [h360, if_neg (by rw [hc]; exact fun h => h rfl)]
    norm_num
  refine ⟨hbase, fun hdd => ?_⟩
  rw [hbase, hdd]
  congr 1
  push_cast
  ring

/-- C3 amended witness: at `spSample` (ACTUAL_360, 30-day window,
rem = 100000, rate = 12 %) the interest is `round(100000 × 12/1200)` =
1000. -/
theorem claim_C3_witness :
    regularInterest spSample =
      roundDecimals ((100000 : ℚ) * 12 / 1200) 2 := by
  exact (claim_C3_amended spSample rfl rfl).2 (by decide)

/-! ## Claim C6 amended — the divisor is termMonths − 2 -/

/-- C6 amended.  The standing payment at schedule start uses
`n = termMonths` without an interest-only period and `n = termMonths − 2`
with one (not `termMonths − 1`): the annuity payment is the closed form
at the monthly rate `annualRate/1200` over that `n`, and the
differentiated per-period principal is `principal / n`. -/
theorem claim_C6_amended (p : LoanScheduleParams)
    (h1 : 0 < p.principal) (h2 : 0 < p.termMonths)
    (h3 : 0 ≤ p.annualInterestRatePercent) :
    startMonthlyPaymentOf p =
      (match p.loanType with
       | .annuity => calculateAnnuityMonthlyPayment
           { principal := p.principal
             monthlyInterestRate := p.annualInterestRatePercent / 1200
             termMonths := if p.interestOnlyFirstPeriod then p.termMonths - 2 else p.termMonths
             roundingDecimals := p.roundingDecimals }
       | .amortization =>
         p.principal /
           (((if p.interestOnlyFirstPeriod then p.termMonths - 2 else p.termMonths) : Int) : ℚ)) := by
  unfold startMonthlyPaymentOf generateLoanSchedule
  rw [if_neg (not_le.mpr h1), if_neg (not_le.mpr h2), if_neg (not_lt.mpr h3)]
  have hr : p.annualInterestRatePercent / 12 / 100 = p.annualInterestRatePercent / 1200 := by
    ring
  cases hLT : p.loanType <;> simp only [hLT, hr]

/-- C6 amended witness: at `interestOnlyParams` (differentiated,
termMonths 12, interest-only first period) the starting payment is
1000 / (12 − 2) = 100. -/
theorem claim_C6_witness :
    startMonthlyPaymentOf interestOnlyParams =
      (1000 : ℚ) / (((12 : Int) - 2 : Int) : ℚ) := by
  have h := claim_C6_amended interestOnlyParams (by norm_num [interestOnlyParams])
    (by norm_num [interestOnlyParams]) (by norm_num [interestOnlyParams])
  simpa [interestOnlyParams] using h

/-! ## Claim C2 — Scenario A; the annuity closed form at rate 0 -/

/-- C2 evaluation.  At annual rate 0 the monthly rate is 0 and the
denominator `(1+r)^n - 1` of the annuity formula is 0 — the JavaScript
source divides 0 by 0 there and produces `NaN`, not `principal / n` —
while the differentiated run of Scenario A does produce the claimed
twelve payments of 1000.00 with zero interest and balances decreasing
11000, 10000, …, 0. -/
theorem claim_C2_theorem :
    annuityDenominator ((0 : ℚ) / 12 / 100) 12 = 0 ∧
    (scheduleOf scenarioAParams).map
        (fun e => (e.paymentAmount, e.interestAmount, e.remainingPrincipal)) =
      [(1000, 0, 11000), (1000, 0, 10000), (1000, 0, 9000), (1000, 0, 8000),
       (1000, 0, 7000), (1000, 0, 6000), (1000, 0, 5000), (1000, 0, 4000),
       (1000, 0, 3000), (1000, 0, 2000), (1000, 0, 1000), (1000, 0, 0)] := by
  constructor
  · with_unfolding_all rfl
  · with_unfolding_all rfl

/-! ## Claim C3 — ACTUAL_360 interest is not calendar-independent -/

/-- C3 counterexample.  Under ACTUAL_360 the first regular period of
`actual360Params` spans 31 calendar days and its interest line is
120000 × (12/100/360) × 31 = 1240.00, not the calendar-independent
120000 × 12 / 1200 = 1200.00 the claim asserts. -/
theorem claim_C3_counterexample :
    ((scheduleOf actual360Params).map (fun e => e.interestAmount)).head? = some 1240 ∧
    (120000 * 12 / 1200 : ℚ) = 1200 ∧ (1240 : ℚ) ≠ 1200 := by
  refine ⟨?_, by norm_num, by norm_num⟩
  with_unfolding_all rfl

/-! ## Claim C6 — the amortization divisor under an interest-only first
period -/

/-- C6 counterexample.  With `interestOnlyFirstPeriod` and
`termMonths = 12` the engine divides by `termMonths - 2 = 10`
(start payment 1000 / 10 = 100), not by `termMonths - 1 = 11` as the
claim states. -/
theorem claim_C6_counterexample :
    startMonthlyPaymentOf interestOnlyParams = 100 ∧
    (100 : ℚ) ≠ 1000 / (12 - 1) := by
  constructor
  · with_unfolding_all rfl
  · norm_num

end LoanLib
